import Mathlib

/-!
Verification of the aquarium-controller backend (power allocator, waveform
patterns, preset interpolation, wavemaker manager, preset storage).

Each Python module under `app/` that the checked properties touch is shallowly
embedded below: Python floats are modelled as `ℚ` (with `ℝ` only where the
source applies `math.sin`/`math.cos`), Python dicts keyed by ids as association
lists, and the in-place mutation of the per-tick passes as explicit state
threading.  Definitions mirror the source functions statement by statement and
keep the source's names.
-/

/-- Truncation toward zero, the semantics of Python's `int()` applied to a
float/rational value. -/
def pyint (q : ℚ) : ℤ := if 0 ≤ q then ⌊q⌋ else -⌊-q⌋

/-- Python's `%` on floats for a positive divisor: the representative of
`a mod b` lying in `[0, b)`.  (For `b = 0` Python raises `ZeroDivisionError`;
this total model returns `a` there, a case none of the checked properties
reach with `b = 0`.) -/
def pymod (a b : ℚ) : ℚ := a - b * ⌊a / b⌋

theorem pymod_lt (a b : ℚ) (hb : 0 < b) : pymod a b < b := by
  unfold pymod
  have h := Int.sub_one_lt_floor (a / b)
  have h2 : a / b - 1 < (⌊a / b⌋ : ℚ) := h
  have h3 : a - b * ⌊a / b⌋ < b := by
    have := mul_lt_mul_of_pos_left h2 hb
    rw [mul_sub, mul_one, mul_div_cancel₀ a (ne_of_gt hb)] at this
    linarith
  exact h3

theorem pymod_nonneg (a b : ℚ) (hb : 0 < b) : 0 ≤ pymod a b := by
  unfold pymod
  have h : (⌊a / b⌋ : ℚ) ≤ a / b := Int.floor_le (a / b)
  have := mul_le_mul_of_nonneg_left h (le_of_lt hb)
  rw [mul_div_cancel₀ a (ne_of_gt hb)] at this
  linarith

namespace PresetManager

/-- One point of a preset flow curve: the `{"time": ..., "power": ...}` dicts
stored in `WavemakerPreset.flow_curves` (see `preset_manager.py`,
`storage.py`). -/
structure Keyframe where
  time : ℚ
  power : ℚ
deriving DecidableEq, Inhabited

/-- The order used by `sorted(curve, key=lambda x: x["time"])`. -/
def timeLE (a b : Keyframe) : Prop := a.time ≤ b.time

instance : DecidableRel timeLE := fun a b => inferInstanceAs (Decidable (a.time ≤ b.time))

instance : IsTotal Keyframe timeLE := ⟨fun a b => le_total a.time b.time⟩

instance : IsTrans Keyframe timeLE := ⟨fun _ _ _ h1 h2 => le_trans h1 h2⟩

/-- The `for i in range(len(curve_sorted) - 1)` loop of
`PresetManager._interpolate_power`: scan consecutive pairs of the sorted
curve and linearly interpolate in the first bracketing segment; `dflt` is the
`return float(curve_sorted[-1]["power"])` fallback after the loop. -/
def interp_loop (t dflt : ℚ) : List Keyframe → ℚ
  | p1 :: p2 :: rest =>
      if p1.time ≤ t ∧ t ≤ p2.time then
        if p2.time - p1.time = 0 then p1.power
        else p1.power + ((t - p1.time) / (p2.time - p1.time)) * (p2.power - p1.power)
      else interp_loop t dflt (p2 :: rest)
  | _ => dflt

/-- Shallow embedding of `PresetManager._interpolate_power` (preset_manager.py
lines 282-307).  Python's `sorted` is a stable sort, and `List.insertionSort`
is stable as well, so both produce the identical ordering, including for
keyframes sharing a time position. -/
def interpolate_power (curve : List Keyframe) (time_pos : ℚ) : ℚ :=
  match curve with
  | [] => 0
  | _ =>
    match List.insertionSort timeLE curve with
    | [] => 0
    | c0 :: rest =>
      let lastk := rest.getLastD c0
      if time_pos ≤ c0.time then c0.power
      else if lastk.time ≤ time_pos then lastk.power
      else interp_loop time_pos lastk.power (c0 :: rest)

theorem eq_of_mem_pairwise_time {l : List Keyframe}
    (h : l.Pairwise (fun a b => a.time ≠ b.time)) {a b : Keyframe}
    (ha : a ∈ l) (hb : b ∈ l) (hab : a.time = b.time) : a = b := by
  induction l with
  | nil => cases ha
  | cons x xs ih =>
    rcases List.pairwise_cons.mp h with ⟨hx, htail⟩
    rcases List.mem_cons.mp ha with rfl | ha'
    · rcases List.mem_cons.mp hb with rfl | hb'
      · rfl
      · exact absurd hab (hx b hb')
    · rcases List.mem_cons.mp hb with rfl | hb'
      · exact absurd hab.symm (hx a ha')
      · exact ih htail ha' hb'

theorem time_le_getLastD {c0 : Keyframe} {rest : List Keyframe}
    (hs : List.Sorted timeLE (c0 :: rest)) :
    ∀ a ∈ c0 :: rest, a.time ≤ (rest.getLastD c0).time := by
  induction rest generalizing c0 with
  | nil =>
    intro a ha
    rcases List.mem_cons.mp ha with rfl | h
    · exact le_refl _
    · cases h
  | cons c1 rest' ih =>
    intro a ha
    have hs' : List.Sorted timeLE (c1 :: rest') := hs.of_cons
    rw [List.getLastD_cons]
    rcases List.mem_cons.mp ha with rfl | h
    · have h1 : timeLE a c1 := List.rel_of_sorted_cons hs c1 (List.mem_cons_self _ _)
      exact le_trans h1 (ih hs' c1 (List.mem_cons_self _ _))
    · exact ih hs' a h

theorem getLastD_mem_cons (c0 : Keyframe) (rest : List Keyframe) :
    rest.getLastD c0 ∈ c0 :: rest := by
  induction rest generalizing c0 with
  | nil => simp [List.getLastD]
  | cons c1 rest' ih =>
    rw [List.getLastD_cons]
    rcases List.mem_cons.mp (ih c1) with h2 | h2
    · rw [h2]
      exact List.mem_cons_of_mem _ (List.mem_cons_self _ _)
    · exact List.mem_cons_of_mem _ (List.mem_cons_of_mem _ h2)

theorem interp_loop_at_keyframe {k : Keyframe} (d : ℚ) :
    ∀ (p1 : Keyframe) (rest : List Keyframe),
      List.Sorted timeLE (p1 :: rest) →
      (p1 :: rest).Pairwise (fun a b => a.time ≠ b.time) →
      k ∈ rest → p1.time < k.time →
      interp_loop k.time d (p1 :: rest) = k.power := by
  intro p1 rest
  induction rest generalizing p1 with
  | nil => intro _ _ hk; cases hk
  | cons p2 rest' ih =>
    intro hs hp hk hlt
    rcases List.mem_cons.mp hk with rfl | hk'
    · have hcond : p1.time ≤ k.time ∧ k.time ≤ k.time := ⟨le_of_lt hlt, le_refl _⟩
      have hne : k.time - p1.time ≠ 0 := by
        intro h0
        exact absurd (by linarith : p1.time = k.time) (ne_of_lt hlt)
      rw [interp_loop, if_pos hcond, if_neg hne]
      field_simp
    · have h12 : p2.time < k.time := by
        have hle : timeLE p2 k :=
          List.rel_of_sorted_cons hs.of_cons k hk'
        have hne : p2.time ≠ k.time :=
          (List.pairwise_cons.mp (List.pairwise_cons.mp hp).2).1 k hk'
        exact lt_of_le_of_ne hle hne
      have hcond : ¬ (p1.time ≤ k.time ∧ k.time ≤ p2.time) := by
        intro h
        exact absurd h.2 (not_le_of_lt h12)
      rw [interp_loop, if_neg hcond]
      exact ih p2 hs.of_cons (List.pairwise_cons.mp hp).2 hk' h12

theorem interpolate_power_at_keyframe (curve : List Keyframe) (k : Keyframe)
    (hdist : curve.Pairwise (fun a b => a.time ≠ b.time)) (hk : k ∈ curve) :
    interpolate_power curve k.time = k.power := by
  have hsort := List.sorted_insertionSort timeLE curve
  have hperm := List.perm_insertionSort timeLE curve
  have hdist2 : (List.insertionSort timeLE curve).Pairwise (fun a b => a.time ≠ b.time) :=
    (hperm.pairwise_iff (fun h => Ne.symm h)).mpr hdist
  have hk2 : k ∈ List.insertionSort timeLE curve := hperm.mem_iff.mpr hk
  cases curve with
  | nil => cases hk
  | cons c cs2 =>
    rcases hcs : List.insertionSort timeLE (c :: cs2) with _ | ⟨c0, rest⟩
    · rw [hcs] at hk2; cases hk2
    · rw [hcs] at hsort hdist2 hk2
      have hexp : interpolate_power (c :: cs2) k.time =
          (let lastk := rest.getLastD c0
           if k.time ≤ c0.time then c0.power
           else if lastk.time ≤ k.time then lastk.power
           else interp_loop k.time lastk.power (c0 :: rest)) := by
        rw [interpolate_power, hcs]
        exact fun h => List.noConfusion h
      rw [hexp]
      by_cases h1 : k.time ≤ c0.time
      · have hge : c0.time ≤ k.time := by
          rcases List.mem_cons.mp hk2 with rfl | hk3
          · exact le_refl _
          · exact List.rel_of_sorted_cons hsort k hk3
        have hkc0 : k = c0 :=
          eq_of_mem_pairwise_time hdist2 hk2 (List.mem_cons_self _ _) (le_antisymm h1 hge)
        rw [if_pos h1, hkc0]
      · push_neg at h1
        have hkrest : k ∈ rest := by
          rcases List.mem_cons.mp hk2 with rfl | hk3
          · exact absurd (le_refl k.time) (not_le_of_lt h1)
          · exact hk3
        by_cases h2 : (rest.getLastD c0).time ≤ k.time
        · have hle : k.time ≤ (rest.getLastD c0).time := time_le_getLastD hsort k hk2
          have hkl : k = rest.getLastD c0 :=
            eq_of_mem_pairwise_time hdist2 hk2 (getLastD_mem_cons c0 rest)
              (le_antisymm hle h2)
          rw [if_neg (not_le_of_lt h1), if_pos h2, hkl]
        · rw [if_neg (not_le_of_lt h1), if_neg h2]
          exact interp_loop_at_keyframe _ c0 rest hsort hdist2 hkrest h1

/-- C8 (amended): for every curve whose keyframes carry pairwise-distinct
time positions — pre-sorted or not — interpolation evaluated exactly at a
keyframe's time position returns that keyframe's power. -/
theorem interpolate_power_idempotent_at_keyframes (curve : List Keyframe)
    (k : Keyframe) (hdist : curve.Pairwise (fun a b => a.time ≠ b.time))
    (hk : k ∈ curve) : interpolate_power curve k.time = k.power :=
  interpolate_power_at_keyframe curve k hdist hk

/-- C8 counterexample: in a curve containing two keyframes that share the
time position 5, interpolation at 5 returns 100 (the endpoint of the first
bracketing segment), not the power 0 of the keyframe `(5, 0)` that is also
in the curve — so idempotence fails on curves with duplicated time
positions. -/
theorem interpolate_power_not_idempotent_at_duplicates :
    (Keyframe.mk 5 0) ∈ ([⟨0, 0⟩, ⟨5, 100⟩, ⟨5, 0⟩, ⟨10, 0⟩] : List Keyframe)
    ∧ interpolate_power [⟨0, 0⟩, ⟨5, 100⟩, ⟨5, 0⟩, ⟨10, 0⟩] (Keyframe.mk 5 0).time = 100
    ∧ (100 : ℚ) ≠ (Keyframe.mk 5 0).power := by
  refine ⟨by decide, ?_, by norm_num⟩
  norm_num [interpolate_power, List.insertionSort, List.orderedInsert, timeLE,
    interp_loop, List.getLastD]

/-- C8 witness: the built-in Pulse preset's curve, evaluated at its second
keyframe. -/
theorem interpolate_power_idempotent_witness :
    (([⟨0, 0⟩, ⟨20, 100⟩, ⟨50, 0⟩, ⟨100, 0⟩] : List Keyframe).Pairwise
        (fun a b => a.time ≠ b.time)
      ∧ (Keyframe.mk 20 100) ∈ ([⟨0, 0⟩, ⟨20, 100⟩, ⟨50, 0⟩, ⟨100, 0⟩] : List Keyframe))
    ∧ interpolate_power [⟨0, 0⟩, ⟨20, 100⟩, ⟨50, 0⟩, ⟨100, 0⟩]
        (Keyframe.mk 20 100).time = (Keyframe.mk 20 100).power :=
  ⟨⟨by decide, by decide⟩,
   interpolate_power_idempotent_at_keyframes _ _ (by decide) (by decide)⟩

end PresetManager

namespace Storage

open PresetManager (Keyframe)

/-- Row of the preset table (`storage.py`, `WavemakerPreset`): id, name,
description, cycle duration, built-in flag and the per-channel keyframe
curves stored as JSON. -/
structure WavemakerPreset where
  id : ℤ
  name : String
  description : String
  cycle_duration_sec : ℤ
  is_built_in : Bool
  flow_curves : List (String × List Keyframe)
deriving DecidableEq, Inhabited

/-- The `**kwargs` of `Store.update_preset`: each field that may be passed is
optional; `setattr` is applied exactly for the fields present (`hasattr`
covers the model's declared columns). -/
structure PresetUpdate where
  id : Option ℤ := none
  name : Option String := none
  description : Option String := none
  cycle_duration_sec : Option ℤ := none
  is_built_in : Option Bool := none
  flow_curves : Option (List (String × List Keyframe)) := none
deriving DecidableEq, Inhabited

/-- The `for key, value in kwargs.items(): setattr(preset, key, value)` loop
of `Store.update_preset`. -/
def applyUpdate (kw : PresetUpdate) (p : WavemakerPreset) : WavemakerPreset :=
  { id := kw.id.getD p.id
    name := kw.name.getD p.name
    description := kw.description.getD p.description
    cycle_duration_sec := kw.cycle_duration_sec.getD p.cycle_duration_sec
    is_built_in := kw.is_built_in.getD p.is_built_in
    flow_curves := kw.flow_curves.getD p.flow_curves }

/-- The preset table behind `Store` (storage.py).  `s.get(WavemakerPreset, id)`
is a primary-key lookup; primary keys are unique, and `find?` returns the
matching row. -/
structure Store where
  presets : List WavemakerPreset
deriving DecidableEq, Inhabited

/-- Shallow embedding of `Store.get_preset`. -/
def Store.get_preset (s : Store) (preset_id : ℤ) : Option WavemakerPreset :=
  s.presets.find? (fun p => decide (p.id = preset_id))

/-- Shallow embedding of `Store.update_preset` (storage.py lines 97-110):
missing row or built-in row returns `None` with the store unchanged;
otherwise the kwargs are applied and committed. -/
def Store.update_preset (s : Store) (preset_id : ℤ) (kw : PresetUpdate) :
    Option WavemakerPreset × Store :=
  match s.get_preset preset_id with
  | none => (none, s)
  | some p =>
    if p.is_built_in then (none, s)
    else
      let p2 := applyUpdate kw p
      (some p2, ⟨s.presets.map (fun q => if q.id = preset_id then p2 else q)⟩)

/-- Shallow embedding of `Store.delete_preset` (storage.py lines 112-119):
missing or built-in rows return `False` and are kept; otherwise the row is
deleted and `True` returned. -/
def Store.delete_preset (s : Store) (preset_id : ℤ) : Bool × Store :=
  match s.get_preset preset_id with
  | none => (false, s)
  | some p =>
    if p.is_built_in then (false, s)
    else (true, ⟨s.presets.filter (fun q => !(decide (q.id = preset_id)))⟩)

/-- C10: for every stored preset, the update and delete operations reject
built-in presets — returning `none` resp. `false` with the store unchanged —
and succeed on non-built-in presets, with delete removing the row. -/
theorem preset_built_in_immutable (s : Store) (preset_id : ℤ)
    (p : WavemakerPreset) (kw : PresetUpdate)
    (hp : s.get_preset preset_id = some p) :
    (p.is_built_in = true →
        s.update_preset preset_id kw = (none, s) ∧
        s.delete_preset preset_id = (false, s))
    ∧ (p.is_built_in = false →
        (s.update_preset preset_id kw).1 = some (applyUpdate kw p) ∧
        (s.delete_preset preset_id).1 = true ∧
        ((s.delete_preset preset_id).2).get_preset preset_id = none) := by
  constructor
  · intro hb
    rw [Store.update_preset, Store.delete_preset, hp]
    dsimp only
    rw [if_pos hb]
    exact ⟨rfl, by rw [if_pos hb]⟩
  · intro hb
    rw [Store.update_preset, Store.delete_preset, hp]
    dsimp only
    rw [if_neg (by rw [hb]; exact Bool.false_ne_true)]
    refine ⟨rfl, by rw [if_neg (by rw [hb]; exact Bool.false_ne_true)], ?_⟩
    rw [if_neg (by rw [hb]; exact Bool.false_ne_true)]
    rw [Store.get_preset]
    dsimp only
    rw [List.find?_eq_none]
    intro q hq
    rcases List.mem_filter.mp hq with ⟨_, hkeep⟩
    simp only [Bool.not_eq_true', decide_eq_false_iff_not] at hkeep
    simpa using hkeep

/-- Fixture: a store holding one built-in and one user preset. -/
def demoBuiltIn : WavemakerPreset :=
  { id := 1, name := "Gentle Flow", description := "Calm, steady flow",
    cycle_duration_sec := 60, is_built_in := true, flow_curves := [] }

/-- Fixture: the user preset of the demo store. -/
def demoUser : WavemakerPreset :=
  { id := 2, name := "My Preset", description := "", cycle_duration_sec := 30,
    is_built_in := false, flow_curves := [] }

/-- Fixture: the demo store itself. -/
def demoStore : Store := { presets := [demoBuiltIn, demoUser] }

/-- C10 witness: the claim instantiated on the demo store's built-in preset. -/
theorem preset_built_in_immutable_witness :
    (demoStore.get_preset 1 = some demoBuiltIn ∧ demoBuiltIn.is_built_in = true)
    ∧ (demoStore.update_preset 1 { name := some "x" } = (none, demoStore) ∧
        demoStore.delete_preset 1 = (false, demoStore)) :=
  ⟨⟨by decide, by decide⟩,
   (preset_built_in_immutable demoStore 1 demoBuiltIn { name := some "x" }
     (by decide)).1 (by decide)⟩

end Storage

namespace HwPatterns

/-- The `PatternMode` literal type of hw_patterns.py. -/
inductive PatternMode
  | OFF
  | CONSTANT
  | PULSE
  | GYRE
  | RANDOM
deriving DecidableEq, Inhabited

/-- Shallow embedding of the `PatternConfig` dataclass (hw_patterns.py lines
13-21), with the source's default field values. -/
structure PatternConfig where
  mode : PatternMode := PatternMode.CONSTANT
  period_s : ℚ := 5
  on_ratio : ℚ := 1/2
  phase_deg : ℚ := 0
  min_intensity : ℚ := 0
  max_intensity : ℚ := 1
deriving DecidableEq, Inhabited

/-- CPython's `hash` on an `int`: reduction modulo `2^61 - 1` keeping the
sign, with `-1` mapped to `-2`.  Used by `_random_pattern`'s deterministic
time-bucket derivation. -/
def pyhash (n : ℤ) : ℤ :=
  let m : ℤ := 2 ^ 61 - 1
  let h := if 0 ≤ n then n % m else -((-n) % m)
  if h = -1 then -2 else h

/-- `math.radians`. -/
noncomputable def radians (deg : ℚ) : ℝ := (deg : ℝ) * (Real.pi / 180)

/-- State of a `Pattern` generator (hw_patterns.py lines 24-39): the current
configuration, the precomputed phase in radians, the time origin
`start_time`, and the smoothing state of the RANDOM mode
(`_last_random`, `_random_target`, `_random_update_time`). -/
structure Pattern where
  config : PatternConfig
  phase_rad : ℝ
  start_time : ℚ
  last_random : ℚ
  random_target : ℚ
  random_update_time : ℚ

/-- Shallow embedding of `Pattern.__init__`: the constructor records the
configuration, converts the phase to radians, and sets the time origin to
the construction instant (Python `time.time()`, passed as `now`). -/
noncomputable def Pattern.init (config : PatternConfig) (now : ℚ) : Pattern :=
  { config := config
    phase_rad := radians config.phase_deg
    start_time := now
    last_random := 1/2
    random_target := 1/2
    random_update_time := 0 }

/-- Shallow embedding of `Pattern._pulse_pattern` (hw_patterns.py lines
76-82): `period_s ≤ 0` is always-on; otherwise 1 while the fractional phase
is below `on_ratio`, else 0. -/
def Pattern.pulse_pattern (p : Pattern) (t : ℚ) : ℚ :=
  if p.config.period_s ≤ 0 then 1
  else
    let phase := pymod t p.config.period_s / p.config.period_s
    if phase < p.config.on_ratio then 1 else 0

/-- Shallow embedding of `Pattern._gyre_pattern` (hw_patterns.py lines
84-90). -/
noncomputable def Pattern.gyre_pattern (p : Pattern) (t : ℚ) : ℝ :=
  if p.config.period_s ≤ 0 then 1/2
  else
    let phase := pymod t p.config.period_s / p.config.period_s
    1/2 * (1 + Real.sin (2 * Real.pi * (phase : ℝ) + p.phase_rad))

/-- Shallow embedding of `Pattern._random_pattern` (hw_patterns.py lines
92-102), whose in-place mutation of the smoothing state is returned as the
second component. -/
def Pattern.random_pattern (p : Pattern) (t : ℚ) : ℚ × Pattern :=
  let p1 := if 10 < t - p.random_update_time then
      { p with
        random_target := 3/10 + 7/10 * (((pyhash (pyint (t / 10))) % 1000 : ℤ) : ℚ) / 1000,
        random_update_time := t }
    else p
  let alpha := min 1 ((t - p1.random_update_time) / 5)
  let lr := p1.last_random * (1 - alpha) + p1.random_target * alpha
  (lr, { p1 with last_random := lr })

/-- Shallow embedding of `Pattern.value` (hw_patterns.py lines 41-74): the
raw mode value scaled into `[min_intensity, max_intensity]`; the updated
generator state (mutated only by RANDOM) is the second component.  The
caller always supplies the timestamp `t` (Python defaults a missing `t` to
`time.time()`). -/
noncomputable def Pattern.value (p : Pattern) (t : ℚ) : ℝ × Pattern :=
  let rel_t := t - p.start_time
  let rawself : ℝ × Pattern :=
    match p.config.mode with
    | PatternMode.OFF => (0, p)
    | PatternMode.CONSTANT => (1, p)
    | PatternMode.PULSE => (((p.pulse_pattern rel_t : ℚ) : ℝ), p)
    | PatternMode.GYRE => (p.gyre_pattern rel_t, p)
    | PatternMode.RANDOM =>
        (((p.random_pattern rel_t).1 : ℝ), (p.random_pattern rel_t).2)
  ((p.config.min_intensity : ℝ) + rawself.1 *
      ((p.config.max_intensity : ℝ) - (p.config.min_intensity : ℝ)),
   rawself.2)

/-- Shallow embedding of `Pattern.update_config` (hw_patterns.py lines
104-107): it replaces the configuration and recomputes `phase_rad`, and
touches nothing else — in particular not `start_time`. -/
noncomputable def Pattern.update_config (p : Pattern) (config : PatternConfig) : Pattern :=
  { p with config := config, phase_rad := radians config.phase_deg }

/-- Shallow embedding of `Pattern.reset` (hw_patterns.py lines 109-114). -/
def Pattern.reset (p : Pattern) (now : ℚ) : Pattern :=
  { p with
    start_time := now
    last_random := 1/2
    random_target := 1/2
    random_update_time := 0 }

/-- The `PatternRegistry.patterns` dict, as an association list. -/
structure PatternRegistry where
  patterns : List (String × Pattern)

/-- Shallow embedding of `PatternRegistry.create_pattern` (hw_patterns.py
lines 124-141): an existing device's pattern gets `update_config`, a new
device gets a fresh `Pattern`; the (possibly replaced) pattern is returned
together with the updated registry. -/
noncomputable def PatternRegistry.create_pattern (reg : PatternRegistry)
    (device_id : String) (config : PatternConfig) (now : ℚ) :
    PatternRegistry × Pattern :=
  match reg.patterns.lookup device_id with
  | some p =>
      let p2 := p.update_config config
      ({ patterns := reg.patterns.map (fun e => if e.1 = device_id then (device_id, p2) else e) },
       p2)
  | none =>
      let p2 := Pattern.init config now
      ({ patterns := reg.patterns ++ [(device_id, p2)] }, p2)

/-- A concrete replacement configuration for the C7 scenario. -/
def demoPulseCfg : PatternConfig := { mode := PatternMode.PULSE }

/-- A concrete pattern state whose time origin is 0. -/
def demoPattern : Pattern :=
  { config := {}
    phase_rad := 0
    start_time := 0
    last_random := 1/2
    random_target := 1/2
    random_update_time := 0 }

/-- C7 counterexample: replacing the configuration of the registered pattern
(origin 0) at time 100 leaves the returned pattern's time origin at 0, not
100 — the generator does not restart at phase 0. -/
theorem create_pattern_does_not_reset_origin :
    ((PatternRegistry.mk [("dev", demoPattern)]).create_pattern "dev"
        demoPulseCfg 100).2.start_time = 0
    ∧ (0 : ℚ) ≠ 100 := by
  constructor
  · rfl
  · norm_num

/-- C7 (amended): replacing an existing device's configuration through
`PatternRegistry.create_pattern` (which calls `Pattern.update_config`)
installs the new configuration but preserves the generator's existing time
origin; only the separate `Pattern.reset` sets the origin to the current
time. -/
theorem create_pattern_preserves_origin (reg : PatternRegistry)
    (device_id : String) (config : PatternConfig) (now : ℚ) (p : Pattern)
    (hp : reg.patterns.lookup device_id = some p) :
    ((reg.create_pattern device_id config now).2.start_time = p.start_time
      ∧ (reg.create_pattern device_id config now).2.config = config)
    ∧ ∀ (q : Pattern) (t : ℚ), (q.reset t).start_time = t := by
  refine ⟨?_, fun q t => rfl⟩
  rw [PatternRegistry.create_pattern, hp]
  exact ⟨rfl, rfl⟩

/-- C7 witness: the amended claim at the concrete registry above. -/
theorem create_pattern_preserves_origin_witness :
    ((PatternRegistry.mk [("dev", demoPattern)]).patterns.lookup "dev" = some demoPattern)
    ∧ ((((PatternRegistry.mk [("dev", demoPattern)]).create_pattern "dev"
            demoPulseCfg 100).2.start_time = demoPattern.start_time
        ∧ ((PatternRegistry.mk [("dev", demoPattern)]).create_pattern "dev"
            demoPulseCfg 100).2.config = demoPulseCfg)
        ∧ ∀ (q : Pattern) (t : ℚ), (q.reset t).start_time = t) :=
  ⟨rfl, create_pattern_preserves_origin (PatternRegistry.mk [("dev", demoPattern)])
    "dev" demoPulseCfg 100 demoPattern rfl⟩

/-- C9: a PULSE pattern over the default intensity range [0, 1] with
`on_ratio = 0.5` and `period = 10` is 1 exactly when the elapsed time modulo
10 is below 5, and 0 otherwise; and for any `on_ratio`, a PULSE pattern with
`period ≤ 0` is the constant always-on value 1. -/
theorem pulse_pattern_square_wave :
    (∀ (p : Pattern) (t : ℚ), p.config.mode = PatternMode.PULSE →
        p.config.period_s = 10 → p.config.on_ratio = 1/2 →
        p.config.min_intensity = 0 → p.config.max_intensity = 1 →
        (p.value t).1 = if pymod (t - p.start_time) 10 < 5 then (1 : ℝ) else 0)
    ∧ (∀ (p : Pattern) (t : ℚ), p.config.mode = PatternMode.PULSE →
        p.config.period_s ≤ 0 →
        p.config.min_intensity = 0 → p.config.max_intensity = 1 →
        (p.value t).1 = 1) := by
  constructor
  · intro p t hm hper hratio hmin hmax
    rw [Pattern.value]
    dsimp only
    rw [hm]
    dsimp only
    rw [Pattern.pulse_pattern, hper, hratio, hmin, hmax]
    rw [if_neg (by norm_num : ¬ (10 : ℚ) ≤ 0)]
    dsimp only
    have hcond : (pymod (t - p.start_time) 10 / 10 < 1/2) ↔
        (pymod (t - p.start_time) 10 < 5) := by
      rw [div_lt_iff₀ (by norm_num : (0:ℚ) < 10)]
      constructor <;> intro h <;> linarith
    split_ifs with h1 h2 h2
    · norm_num
    · exact absurd (hcond.mp h1) h2
    · exact absurd (hcond.mpr h2) h1
    · norm_num
  · intro p t hm hper hmin hmax
    rw [Pattern.value]
    dsimp only
    rw [hm]
    dsimp only
    rw [Pattern.pulse_pattern, if_pos hper, hmin, hmax]
    norm_num

/-- A concrete PULSE pattern with period 10 and ratio one half over [0, 1]. -/
def demoPulse : Pattern :=
  { config :=
      { mode := PatternMode.PULSE
        period_s := 10
        on_ratio := 1/2
        phase_deg := 0
        min_intensity := 0
        max_intensity := 1 }
    phase_rad := 0
    start_time := 0
    last_random := 1/2
    random_target := 1/2
    random_update_time := 0 }

/-- A concrete PULSE pattern with period 0 (always on) over [0, 1]. -/
def demoAlwaysOn : Pattern :=
  { config :=
      { mode := PatternMode.PULSE
        period_s := 0
        on_ratio := 3/10
        phase_deg := 0
        min_intensity := 0
        max_intensity := 1 }
    phase_rad := 0
    start_time := 0
    last_random := 1/2
    random_target := 1/2
    random_update_time := 0 }

/-- C9 witness: both halves of the claim at concrete patterns and times. -/
theorem pulse_pattern_square_wave_witness :
    (demoPulse.config.mode = PatternMode.PULSE ∧ demoPulse.config.period_s = 10
      ∧ demoPulse.config.on_ratio = 1/2 ∧ demoPulse.config.min_intensity = 0
      ∧ demoPulse.config.max_intensity = 1
      ∧ (demoPulse.value 3).1 = if pymod ((3:ℚ) - demoPulse.start_time) 10 < 5
          then (1 : ℝ) else 0)
    ∧ (demoAlwaysOn.config.mode = PatternMode.PULSE ∧ demoAlwaysOn.config.period_s ≤ 0
      ∧ demoAlwaysOn.config.min_intensity = 0 ∧ demoAlwaysOn.config.max_intensity = 1
      ∧ (demoAlwaysOn.value 7).1 = 1) :=
  ⟨⟨rfl, rfl, rfl, rfl, rfl,
    pulse_pattern_square_wave.1 demoPulse 3 rfl rfl rfl rfl rfl⟩,
   ⟨rfl, le_refl 0, rfl, rfl,
    pulse_pattern_square_wave.2 demoAlwaysOn 7 rfl (le_refl 0) rfl rfl⟩⟩

end HwPatterns

namespace PresetManager

/-- State of `PresetManager` (preset_manager.py lines 7-12): the backing
store, the pointer to the active preset, and the wall-clock time the cycle
was (re)started. -/
structure PresetManagerState where
  store : Storage.Store
  active_preset_id : Option ℤ
  cycle_start_time : ℚ
deriving DecidableEq, Inhabited

/-- Shallow embedding of `PresetManager.get_active_preset` (preset_manager.py
lines 252-255). -/
def get_active_preset (pm : PresetManagerState) : Option Storage.WavemakerPreset :=
  match pm.active_preset_id with
  | none => none
  | some pid => pm.store.get_preset pid

/-- Shallow embedding of `PresetManager.set_active_preset` (preset_manager.py
lines 243-250). -/
def set_active_preset (pm : PresetManagerState) (preset_id : ℤ) (now : ℚ) :
    Bool × PresetManagerState :=
  match pm.store.get_preset preset_id with
  | none => (false, pm)
  | some _ =>
      (true, { pm with active_preset_id := some preset_id, cycle_start_time := now })

/-- Shallow embedding of `PresetManager.get_current_power_levels`
(preset_manager.py lines 257-280), viewed per wavemaker number `i` (the
Python dict always carries keys 1..12; missing curves yield 0).  A zero
`cycle_duration_sec` would raise `ZeroDivisionError` in Python; the total
model returns the `pymod` fallback there. -/
def get_current_power_levels (pm : PresetManagerState) (now : ℚ) (i : ℕ) : ℚ :=
  match pm.active_preset_id with
  | none => 0
  | some pid =>
    match pm.store.get_preset pid with
    | none => 0
    | some preset =>
      let elapsed := now - pm.cycle_start_time
      let position_in_cycle_sec := pymod elapsed (preset.cycle_duration_sec : ℚ)
      let position_in_cycle_pct := position_in_cycle_sec / (preset.cycle_duration_sec : ℚ) * 100
      match preset.flow_curves.lookup ("wavemaker_" ++ toString i) with
      | some curve => interpolate_power curve position_in_cycle_pct
      | none => 0

end PresetManager

namespace Wavemaker

/-- The `WavemakerMode` literal type (models.py line 102). -/
inductive WavemakerMode
  | off
  | constant
  | pulse
  | gyre_left
  | gyre_right
  | random_reef
deriving DecidableEq, Inhabited

/-- State of one wavemaker `Channel` (wavemaker_manager.py lines 15-37). -/
structure Channel where
  id : ℕ
  name : String
  mode : WavemakerMode
  target_power_pct : ℤ
  current_duty : ℝ
  voltage_v : ℚ
  current_a : ℚ
  power_w : ℚ
  pattern_phase : ℝ
  pulse_on_time : ℚ
  pulse_period : ℚ
  pulse_duty_ratio : ℚ
  random_current : ℝ
  random_target : ℝ
  random_transition_start : ℚ
  random_transition_duration : ℚ
deriving Inhabited

/-- Shallow embedding of `Channel._compute_duty_from_mode` (wavemaker_manager.py
lines 39-97).  The `random_reef` branch draws `random.uniform(0.3, 1.0)` and
`random.uniform(5.0, 15.0)`; those two draws are supplied as the oracle
`rnd`, and the branch's in-place mutation of the smoothing state is returned
as the second component. -/
noncomputable def Channel.compute_duty_from_mode (c : Channel) (t_now : ℚ)
    (rnd : ℚ × ℚ) : ℝ × Channel :=
  match c.mode with
  | WavemakerMode.off => (0, c)
  | WavemakerMode.constant => ((c.target_power_pct : ℝ) / 100, c)
  | WavemakerMode.pulse =>
    let time_in_cycle := pymod (t_now - c.pulse_on_time) c.pulse_period
    let on_duration := c.pulse_period * c.pulse_duty_ratio
    (if time_in_cycle < on_duration then (c.target_power_pct : ℝ) / 100 else 0, c)
  | WavemakerMode.gyre_left =>
    let phase := (t_now : ℝ) / 30 * (2 * Real.pi) + c.pattern_phase
    let wave := (Real.sin phase + 1) / 2
    let duty := if c.id % 2 = 0 then wave * ((c.target_power_pct : ℝ) / 100)
      else (1 - wave) * ((c.target_power_pct : ℝ) / 100)
    (max 0 (min 1 duty), c)
  | WavemakerMode.gyre_right =>
    let phase := (t_now : ℝ) / 30 * (2 * Real.pi) + c.pattern_phase
    let wave := (Real.sin phase + 1) / 2
    let duty := if c.id % 2 = 0 then (1 - wave) * ((c.target_power_pct : ℝ) / 100)
      else wave * ((c.target_power_pct : ℝ) / 100)
    (max 0 (min 1 duty), c)
  | WavemakerMode.random_reef =>
    let elapsed0 := t_now - c.random_transition_start
    let c1 := if c.random_transition_duration ≤ elapsed0 then
        { c with
          random_current := c.random_target
          random_target := (rnd.1 : ℝ) * ((c.target_power_pct : ℝ) / 100)
          random_transition_start := t_now
          random_transition_duration := rnd.2 }
      else c
    let elapsed : ℚ := if c.random_transition_duration ≤ elapsed0 then 0 else elapsed0
    let progress : ℚ := min 1 (elapsed / c1.random_transition_duration)
    let smooth : ℝ := 1/2 * (1 - Real.cos ((progress : ℝ) * Real.pi))
    let duty := (1 - smooth) * c1.random_current + smooth * c1.random_target
    (max 0 (min 1 duty), c1)

/-- The PCA9685 PWM outputs of `WavemakerHAL` for the six mapped channels
(`channel_map` is the identity on 0..5; ids outside it are ignored by
`set_channel_pwm`); the simulated sensors receive the same duty. -/
structure WavemakerHAL where
  pwm_duty : ℕ → ℝ

/-- Shallow embedding of `WavemakerHAL.set_channel_pwm` (hal.py lines 39-56):
unknown channels are ignored, the duty is clamped to [0, 1]. -/
def WavemakerHAL.set_channel_pwm (hal : WavemakerHAL) (channel_id : ℕ) (duty : ℝ) :
    WavemakerHAL :=
  if channel_id < 6 then
    { pwm_duty := fun i => if i = channel_id then max 0 (min 1 duty) else hal.pwm_duty i }
  else hal

/-- Shallow embedding of `WavemakerHAL.shutdown_all` (hal.py lines 72-75). -/
def WavemakerHAL.shutdown_all (hal : WavemakerHAL) : WavemakerHAL :=
  (List.range 6).foldl (fun h i => h.set_channel_pwm i 0) hal

/-- Shallow embedding of `Channel.update_pwm` (wavemaker_manager.py lines
99-103). -/
noncomputable def Channel.update_pwm (c : Channel) (t_now : ℚ) (rnd : ℚ × ℚ)
    (hal : WavemakerHAL) : Channel × WavemakerHAL :=
  let r := c.compute_duty_from_mode t_now rnd
  ({ r.2 with current_duty := r.1 }, hal.set_channel_pwm c.id r.1)

/-- Shallow embedding of `Channel.set_mode` (wavemaker_manager.py lines
112-126); `now` stands for the `time.time()` calls of the pulse and
random branches. -/
noncomputable def Channel.set_mode (c : Channel) (mode : WavemakerMode)
    (target_pct : ℤ) (pulse_duty_ratio : Option ℚ) (now : ℚ) : Channel :=
  let c1 := { c with mode := mode, target_power_pct := max 0 (min 100 target_pct) }
  let c2 := match pulse_duty_ratio with
    | some r => { c1 with pulse_duty_ratio := max 0 (min 1 r) }
    | none => c1
  let c3 := if mode = WavemakerMode.pulse then { c2 with pulse_on_time := now } else c2
  if mode = WavemakerMode.random_reef then
    { c3 with
      random_current := c3.current_duty
      random_target := (c3.target_power_pct : ℝ) / 100
      random_transition_start := now }
  else c3

/-- State of the `WavemakerManager` (wavemaker_manager.py lines 142-163): the
six channels, the HAL, and the injected preset manager.  The telemetry
history ring buffers and the sampling throttle are not read or written by
`update_all`, `apply_preset_power_levels` or `emergency_stop` and are
omitted. -/
structure WavemakerManager where
  channels : List Channel
  hal : WavemakerHAL
  preset_manager : Option PresetManager.PresetManagerState

/-- The per-channel assignment loop of `apply_preset_power_levels`: the
power-levels dict always carries wavemaker numbers 1..12, and the channel at
index `wavemaker_num - 1` is set when it exists; `start` is the index of the
first channel of `l` within the manager's list. -/
def applyLevels (levels : ℕ → ℚ) : ℕ → List Channel → List Channel
  | _, [] => []
  | idx, ch :: rest =>
      (if idx < 12 then
        { ch with
          mode := WavemakerMode.constant
          target_power_pct := pyint (levels (idx + 1)) }
      else ch) :: applyLevels levels (idx + 1) rest

/-- Shallow embedding of `WavemakerManager.apply_preset_power_levels`
(wavemaker_manager.py lines 169-181); `wall` stands for the `time.time()`
read inside `get_current_power_levels`. -/
def WavemakerManager.apply_preset_power_levels (m : WavemakerManager) (wall : ℚ) :
    WavemakerManager :=
  match m.preset_manager with
  | none => m
  | some pm =>
    { m with channels :=
        applyLevels (PresetManager.get_current_power_levels pm wall) 0 m.channels }

/-- The `for channel in self.channels: channel.update_pwm(...)` loop of
`update_all`, threading the HAL; the oracle `rnds` supplies the random draws
of each channel's `random_reef` branch, indexed by channel id. -/
noncomputable def update_channels (t_now : ℚ) (rnds : ℕ → ℚ × ℚ) :
    List Channel → WavemakerHAL → List Channel × WavemakerHAL
  | [], hal => ([], hal)
  | ch :: rest, hal =>
    let r := ch.update_pwm t_now (rnds ch.id) hal
    let rr := update_channels t_now rnds rest r.2
    (r.1 :: rr.1, rr.2)

/-- Shallow embedding of `WavemakerManager.update_all` (wavemaker_manager.py
lines 183-189): apply the active preset's power levels when a preset manager
is present and a preset is active, then update every channel's PWM. -/
noncomputable def WavemakerManager.update_all (m : WavemakerManager)
    (t_now wall : ℚ) (rnds : ℕ → ℚ × ℚ) : WavemakerManager :=
  let m1 := match m.preset_manager with
    | some pm =>
        if (PresetManager.get_active_preset pm).isSome then
          m.apply_preset_power_levels wall
        else m
    | none => m
  let r := update_channels t_now rnds m1.channels m1.hal
  { m1 with channels := r.1, hal := r.2 }

/-- Shallow embedding of `WavemakerManager.emergency_stop` (wavemaker_manager.py
lines 245-249): every channel is set to mode off with target 0, then the HAL
shuts every output down. -/
noncomputable def WavemakerManager.emergency_stop (m : WavemakerManager) (now : ℚ) :
    WavemakerManager :=
  { m with
    channels := m.channels.map (fun ch => ch.set_mode WavemakerMode.off 0 none now)
    hal := m.hal.shutdown_all }

theorem set_mode_off (c : Channel) (now : ℚ) :
    (c.set_mode WavemakerMode.off 0 none now).mode = WavemakerMode.off ∧
    (c.set_mode WavemakerMode.off 0 none now).target_power_pct = 0 ∧
    (c.set_mode WavemakerMode.off 0 none now).id = c.id := by
  refine ⟨rfl, ?_, rfl⟩
  show max 0 (min 100 0) = (0 : ℤ)
  decide

theorem set_channel_pwm_other (hal : WavemakerHAL) (j : ℕ) (d : ℝ) (i : ℕ)
    (h : i ≠ j) : (hal.set_channel_pwm j d).pwm_duty i = hal.pwm_duty i := by
  unfold WavemakerHAL.set_channel_pwm
  split_ifs with hj
  · dsimp only
    rw [if_neg h]
  · rfl

theorem set_channel_pwm_self (hal : WavemakerHAL) (j : ℕ) (d : ℝ) (hj : j < 6) :
    (hal.set_channel_pwm j d).pwm_duty j = max 0 (min 1 d) := by
  unfold WavemakerHAL.set_channel_pwm
  rw [if_pos hj]
  dsimp only
  rw [if_pos rfl]

theorem foldl_set_pwm_preserve (l : List ℕ) :
    ∀ (hal : WavemakerHAL) (i : ℕ), i ∉ l →
      ((l.foldl (fun h j => h.set_channel_pwm j 0) hal)).pwm_duty i = hal.pwm_duty i := by
  induction l with
  | nil => intro hal i _; rfl
  | cons j rest ih =>
    intro hal i hmem
    rw [List.foldl_cons]
    rw [ih _ i (fun hc => hmem (List.mem_cons_of_mem _ hc))]
    exact set_channel_pwm_other hal j 0 i (fun he => hmem (he ▸ List.mem_cons_self _ _))

theorem foldl_set_pwm_zero (l : List ℕ) :
    l.Nodup → ∀ (hal : WavemakerHAL) (i : ℕ), i ∈ l → (∀ j ∈ l, j < 6) →
      ((l.foldl (fun h j => h.set_channel_pwm j 0) hal)).pwm_duty i = 0 := by
  induction l with
  | nil => intro _ hal i hmem _; cases hmem
  | cons j rest ih =>
    intro hnd hal i hmem hlt
    rw [List.foldl_cons]
    rcases List.mem_cons.mp hmem with rfl | hmem2
    · have hnir : i ∉ rest := (List.nodup_cons.mp hnd).1
      rw [foldl_set_pwm_preserve rest _ i hnir]
      rw [set_channel_pwm_self hal i 0 (hlt i (List.mem_cons_self _ _))]
      norm_num
    · exact ih (List.nodup_cons.mp hnd).2 _ i hmem2
        (fun j2 hj2 => hlt j2 (List.mem_cons_of_mem _ hj2))

theorem shutdown_all_pwm (hal : WavemakerHAL) (i : ℕ) (h : i < 6) :
    hal.shutdown_all.pwm_duty i = 0 := by
  rw [WavemakerHAL.shutdown_all]
  exact foldl_set_pwm_zero (List.range 6) (List.nodup_range 6) hal i
    (List.mem_range.mpr h) (fun j hj => List.mem_range.mp hj)

/-- C3: for every manager state (any channel modes, targets, preset),
emergency stop leaves every managed channel with mode off and target 0, and
drives the PWM output of every channel (all of which sit on HAL channels
0-5, as constructed) to duty 0, regardless of the active pattern or preset. -/
theorem emergency_stop_all_off (m : WavemakerManager) (now : ℚ)
    (hids : ∀ ch ∈ m.channels, ch.id < 6) :
    ∀ ch ∈ (m.emergency_stop now).channels,
      ch.mode = WavemakerMode.off ∧ ch.target_power_pct = 0 ∧
      (m.emergency_stop now).hal.pwm_duty ch.id = 0 := by
  intro ch hch
  rw [WavemakerManager.emergency_stop] at hch ⊢
  dsimp only at hch ⊢
  rcases List.mem_map.mp hch with ⟨c0, hc0, rfl⟩
  refine ⟨(set_mode_off c0 now).1, (set_mode_off c0 now).2.1, ?_⟩
  rw [(set_mode_off c0 now).2.2]
  exact shutdown_all_pwm m.hal c0.id (hids c0 hc0)

/-- A concrete wavemaker channel in pulse mode at 80 % target. -/
def demoChannel (i : ℕ) (nm : String) : Channel :=
  { id := i, name := nm, mode := WavemakerMode.pulse, target_power_pct := 80,
    current_duty := 0, voltage_v := 0, current_a := 0, power_w := 0,
    pattern_phase := 0, pulse_on_time := 0, pulse_period := 10,
    pulse_duty_ratio := 3/5, random_current := 0, random_target := 0,
    random_transition_start := 0, random_transition_duration := 2 }

/-- The six channels of `WavemakerManager.__init__`. -/
def demoChannels : List Channel :=
  [demoChannel 0 "Front Left", demoChannel 1 "Front Right",
   demoChannel 2 "Mid Left", demoChannel 3 "Mid Right",
   demoChannel 4 "Back Left", demoChannel 5 "Back Right"]

/-- A manager with the six channels, all PWM outputs at 1, no preset. -/
def demoManager : WavemakerManager :=
  { channels := demoChannels, hal := { pwm_duty := fun _ => 1 },
    preset_manager := none }

/-- C3 witness: emergency stop at the concrete manager. -/
theorem emergency_stop_all_off_witness :
    (∀ ch ∈ demoManager.channels, ch.id < 6)
    ∧ ∀ ch ∈ (demoManager.emergency_stop 0).channels,
        ch.mode = WavemakerMode.off ∧ ch.target_power_pct = 0 ∧
        (demoManager.emergency_stop 0).hal.pwm_duty ch.id = 0 :=
  ⟨by decide, emergency_stop_all_off demoManager 0 (by decide)⟩

theorem update_pwm_preserves (c : Channel) (t_now : ℚ) (rnd : ℚ × ℚ)
    (hal : WavemakerHAL) :
    (c.update_pwm t_now rnd hal).1.mode = c.mode ∧
    (c.update_pwm t_now rnd hal).1.target_power_pct = c.target_power_pct := by
  rw [Channel.update_pwm, Channel.compute_duty_from_mode]
  cases hm : c.mode <;> dsimp only <;>
    first
      | exact ⟨hm, rfl⟩
      | (split_ifs <;> first
          | exact ⟨rfl, rfl⟩
          | exact ⟨hm, rfl⟩)

theorem applyLevels_length (levels : ℕ → ℚ) :
    ∀ (start : ℕ) (l : List Channel),
      (applyLevels levels start l).length = l.length := by
  intro start l
  induction l generalizing start with
  | nil => rfl
  | cons ch rest ih => simp [applyLevels, ih]

theorem applyLevels_getD (levels : ℕ → ℚ) :
    ∀ (l : List Channel) (start i : ℕ), i < l.length →
      (applyLevels levels start l).getD i default =
        (if start + i < 12 then
          { (l.getD i default) with
            mode := WavemakerMode.constant
            target_power_pct := pyint (levels (start + i + 1)) }
        else l.getD i default) := by
  intro l
  induction l with
  | nil => intro start i h; cases h
  | cons ch rest ih =>
    intro start i h
    cases i with
    | zero =>
      rw [applyLevels]
      simp only [List.getD_cons_zero, Nat.add_zero]
    | succ n =>
      rw [applyLevels]
      simp only [List.getD_cons_succ]
      have harith : start + 1 + n = start + (n + 1) := by omega
      rw [ih (start + 1) n (by simpa using h), harith]

theorem update_channels_getD (t_now : ℚ) (rnds : ℕ → ℚ × ℚ) :
    ∀ (cs : List Channel) (hal : WavemakerHAL) (i : ℕ), i < cs.length →
      ∃ hal2, (update_channels t_now rnds cs hal).1.getD i default =
        ((cs.getD i default).update_pwm t_now (rnds (cs.getD i default).id) hal2).1 := by
  intro cs
  induction cs with
  | nil => intro hal i h; cases h
  | cons ch rest ih =>
    intro hal i h
    cases i with
    | zero => exact ⟨hal, rfl⟩
    | succ n =>
      rw [update_channels]
      dsimp only
      simp only [List.getD_cons_succ]
      exact ih _ n (by simpa using h)

/-- C4: whenever a preset manager is present and a preset is active, every
invocation of `update_all` sets each channel covered by the preset's power
levels (indices 0-11) to mode constant with target power taken from the
active preset's interpolated power levels, whatever mode or target a prior
control command or emergency stop had left on the channel. -/
theorem update_all_applies_preset (m : WavemakerManager) (t_now wall : ℚ)
    (rnds : ℕ → ℚ × ℚ) (pm : PresetManager.PresetManagerState)
    (hpm : m.preset_manager = some pm)
    (hactive : (PresetManager.get_active_preset pm).isSome = true) :
    ∀ idx, idx < m.channels.length → idx < 12 →
      ((m.update_all t_now wall rnds).channels.getD idx default).mode =
          WavemakerMode.constant ∧
      ((m.update_all t_now wall rnds).channels.getD idx default).target_power_pct =
          pyint (PresetManager.get_current_power_levels pm wall (idx + 1)) := by
  intro idx hlen h12
  rw [WavemakerManager.update_all]
  dsimp only
  rw [hpm]
  dsimp only
  rw [if_pos hactive]
  rw [WavemakerManager.apply_preset_power_levels, hpm]
  dsimp only
  have hlen2 : idx <
      (applyLevels (PresetManager.get_current_power_levels pm wall) 0 m.channels).length := by
    rw [applyLevels_length]
    exact hlen
  rcases update_channels_getD t_now rnds _ m.hal idx hlen2 with ⟨hal2, heq⟩
  rw [heq]
  have hap := applyLevels_getD (PresetManager.get_current_power_levels pm wall)
    m.channels 0 idx hlen
  rw [if_pos (by omega : 0 + idx < 12)] at hap
  rw [Nat.zero_add] at hap
  rw [hap]
  exact ⟨(update_pwm_preserves _ t_now _ hal2).1.trans rfl,
    (update_pwm_preserves _ t_now _ hal2).2.trans rfl⟩

/-- A preset record with one flow curve, used as the active preset. -/
def demoPreset : Storage.WavemakerPreset :=
  { id := 1, name := "Pulse", description := "Short bursts of strong flow",
    cycle_duration_sec := 10, is_built_in := true,
    flow_curves := [("wavemaker_1",
      [PresetManager.Keyframe.mk 0 0, PresetManager.Keyframe.mk 20 100,
       PresetManager.Keyframe.mk 50 0, PresetManager.Keyframe.mk 100 0])] }

/-- A preset manager whose active preset is `demoPreset`. -/
def demoPM : PresetManager.PresetManagerState :=
  { store := { presets := [demoPreset] }, active_preset_id := some 1,
    cycle_start_time := 0 }

/-- The demo manager with the active preset installed. -/
def demoManagerPreset : WavemakerManager :=
  { channels := demoChannels, hal := { pwm_duty := fun _ => 0 },
    preset_manager := some demoPM }

/-- C4 witness: the claim instantiated on the concrete manager with the
active preset. -/
theorem update_all_applies_preset_witness :
    (demoManagerPreset.preset_manager = some demoPM
      ∧ (PresetManager.get_active_preset demoPM).isSome = true)
    ∧ ∀ idx, idx < demoManagerPreset.channels.length → idx < 12 →
        ((demoManagerPreset.update_all 1 1 (fun _ => (1/2, 7))).channels.getD idx
            default).mode = WavemakerMode.constant ∧
        ((demoManagerPreset.update_all 1 1 (fun _ => (1/2, 7))).channels.getD idx
            default).target_power_pct =
          pyint (PresetManager.get_current_power_levels demoPM 1 (idx + 1)) :=
  ⟨⟨rfl, by decide⟩,
   update_all_applies_preset demoManagerPreset 1 1 (fun _ => (1/2, 7)) demoPM
     rfl (by decide)⟩

end Wavemaker

namespace PowerAllocator

/-- LED entity (models.py, `LED`).  `intensity_limit_pct` is an `int` in the
source; `ℚ` contains every value it takes, and the allocator immediately uses
it in rational arithmetic. -/
structure LED where
  id : String
  label : String
  intensity_limit_pct : ℚ
  priority : ℤ
  is_on : Bool
  current_intensity_pct : ℚ
deriving DecidableEq, Inhabited

/-- Array status (models.py, `ArrayStatus`) restricted to the fields the
allocator reads; the telemetry fields (`mode`, `vin_v`, `iin_a`, `vout_v`,
`iout_a`) are never touched by `PowerAllocator` and are omitted.
`max_current_a` and `nominal_voltage_v` live on `ArrayConfig`/the stage in the
source and are carried on the status object handed to the allocator. -/
structure ArrayStatus where
  id : String
  name : String
  enabled : Bool
  duty : ℚ
  leds : List LED
  power_w : ℚ
  max_current_a : ℚ
  nominal_voltage_v : ℚ
deriving DecidableEq, Inhabited

/-- A Python `dict` keyed by `(array_id, led_id)` with `datetime` values
(times as rationals), modelled as an association list: assignment shadows,
`pop` erases, `clear` empties, and only lookups are ever observed. -/
abbrev TimeMap := List ((String × String) × ℚ)

/-- Dict lookup `m[k]` / `k in m`. -/
def dictLookup (m : TimeMap) (k : String × String) : Option ℚ :=
  (m.find? (fun e => decide (e.1 = k))).map (fun e => e.2)

/-- Dict deletion `m.pop(k, None)`. -/
def dictErase (m : TimeMap) (k : String × String) : TimeMap :=
  m.filter (fun e => !(decide (e.1 = k)))

/-- Dict assignment `m[k] = v`. -/
def dictSet (m : TimeMap) (k : String × String) (v : ℚ) : TimeMap :=
  (k, v) :: dictErase m k

/-- Persistent state of `PowerAllocator.__init__`: config scalars plus the two
timing dicts. -/
structure PowerAllocatorState where
  target_watts : ℚ
  restore_hysteresis_pct : ℚ
  restore_delay_s : ℚ
  last_shed_time : TimeMap
  surplus_start_time : TimeMap
deriving DecidableEq, Inhabited

/-- Shallow embedding of `PowerAllocator.calculate_load`. -/
def calculate_load (arrays : List ArrayStatus) : ℚ :=
  arrays.foldl (fun total a => if a.enabled then total + a.power_w else total) 0

/-- In-place mutation of one LED object (`led.is_on = ...` etc.), addressed by
its (array position, led position); out-of-range positions leave the list
unchanged, matching that such positions address no object. -/
def updateAt {α : Type} (l : List α) (i : ℕ) (f : α → α) : List α :=
  match l, i with
  | [], _ => []
  | x :: xs, 0 => f x :: xs
  | x :: xs, n + 1 => x :: updateAt xs n f

/-- Read the LED object at position `p = (array index, led index)`; positions
are how the model identifies the Python objects aliased between
`get_all_leds_sorted_by_priority`'s result and the arrays' own lists. -/
def ledAt (arrays : List ArrayStatus) (p : ℕ × ℕ) : LED :=
  ((arrays.getD p.1 default).leds).getD p.2 default

/-- Mutate the LED object at position `p`. -/
def setLed (arrays : List ArrayStatus) (p : ℕ × ℕ) (f : LED → LED) : List ArrayStatus :=
  updateAt arrays p.1 (fun a => { a with leds := updateAt a.leds p.2 f })

/-- The collection loop of `get_all_leds_sorted_by_priority`: every LED of
every enabled array, as positions, in source order. -/
def enumLeds (arrays : List ArrayStatus) : List (ℕ × ℕ) :=
  (List.range arrays.length).flatMap (fun ai =>
    if (arrays.getD ai default).enabled then
      (List.range (arrays.getD ai default).leds.length).map (fun li => (ai, li))
    else [])

/-- The key order of `all_leds.sort(key=lambda x: x[1].priority, reverse=True)`:
`p` may come before `q` iff `q`'s priority is at most `p`'s (descending). -/
def prioGE (arrays : List ArrayStatus) (p q : ℕ × ℕ) : Prop :=
  (ledAt arrays q).priority ≤ (ledAt arrays p).priority

instance (arrays : List ArrayStatus) : DecidableRel (prioGE arrays) :=
  fun p q => inferInstanceAs (Decidable ((ledAt arrays q).priority ≤ (ledAt arrays p).priority))

instance (arrays : List ArrayStatus) : IsTotal (ℕ × ℕ) (prioGE arrays) :=
  ⟨fun p q => le_total (ledAt arrays q).priority (ledAt arrays p).priority⟩

instance (arrays : List ArrayStatus) : IsTrans (ℕ × ℕ) (prioGE arrays) :=
  ⟨fun _ _ _ h1 h2 => le_trans h2 h1⟩

/-- Shallow embedding of `PowerAllocator.get_all_leds_sorted_by_priority`
(power_allocator.py lines 25-33).  Python's `list.sort(..., reverse=True)` is
stable (ties keep source order); `List.insertionSort` is stable for the same
relation, so both produce the identical ordering. -/
def get_all_leds_sorted_by_priority (arrays : List ArrayStatus) : List (ℕ × ℕ) :=
  List.insertionSort (prioGE arrays) (enumLeds arrays)

/-- The `next(a for a in arrays if a.id == array_id)` lookup.  The generator
never raises here: `array_id` is always the id of an array present in the
list, so `find?` succeeds and the `getD default` fallback is dead. -/
def findArray (arrays : List ArrayStatus) (array_id : String) : ArrayStatus :=
  (arrays.find? (fun a => decide (a.id = array_id))).getD default

/-- The `len([l for l in array.leds if l.is_on])` count of the shed pass. -/
def onCount (a : ArrayStatus) : ℕ := (a.leds.filter (fun l => l.is_on)).length

/-- One entry of the shed pass trace: the `(array_id, led.id)` pair appended
to `leds_to_shed`, together with the shed LED's priority and the
`led_power` the source computes and logs in the shed event details. -/
structure ShedStep where
  array_id : String
  led_id : String
  priority : ℤ
  led_power : ℚ
deriving DecidableEq, Inhabited

/-- The two mutations `led.is_on = False` and `led.current_intensity_pct = 0.0`
performed on a shed LED. -/
def shedOff (l : LED) : LED := { l with is_on := false, current_intensity_pct := 0 }

/-- The two mutations `led.is_on = True` and
`led.current_intensity_pct = led.intensity_limit_pct * array.duty` performed
on a restored LED. -/
def restoreOn (duty : ℚ) (l : LED) : LED :=
  { l with is_on := true, current_intensity_pct := l.intensity_limit_pct * duty }

/-- The `for array_id, led in all_leds` loop of `shed_leds`, threading the
mutable state (arrays, `last_shed_time`, `power_to_reduce`).  The source's
division `array.power_w / len([...])` raises in Python if the found array has
zero on-LEDs; that needs a duplicated array id and is unreachable from the
callers, and the total model returns 0 for it. -/
def shed_loop (now : ℚ) :
    List (ℕ × ℕ) → List ArrayStatus → TimeMap → ℚ →
      List ArrayStatus × TimeMap × List ShedStep × ℚ
  | [], arrays, lst, deficit => (arrays, lst, [], deficit)
  | p :: rest, arrays, lst, deficit =>
    let led := ledAt arrays p
    if led.is_on = false then shed_loop now rest arrays lst deficit
    else
      let aid := (arrays.getD p.1 default).id
      let arr := findArray arrays aid
      let led_power := led.current_intensity_pct / 100 * (arr.power_w / (onCount arr : ℚ))
      let arrays2 := setLed arrays p shedOff
      let lst2 := dictSet lst (aid, led.id) now
      let deficit2 := deficit - led_power
      if deficit2 ≤ 0 then (arrays2, lst2, [⟨aid, led.id, led.priority, led_power⟩], deficit2)
      else
        let r := shed_loop now rest arrays2 lst2 deficit2
        (r.1, r.2.1, ⟨aid, led.id, led.priority, led_power⟩ :: r.2.2.1, r.2.2.2)

/-- Shallow embedding of `PowerAllocator.shed_leds` (power_allocator.py lines
35-83).  Returns the mutated arrays, the updated `last_shed_time`, the shed
trace — whose `(array_id, led_id)` projection is the Python return value —
and the final value of `power_to_reduce`. -/
def shed_leds (st : PowerAllocatorState) (arrays : List ArrayStatus)
    (pv_w battery_w_available now : ℚ) :
    List ArrayStatus × TimeMap × List ShedStep × ℚ :=
  let available_power := pv_w + battery_w_available
  let current_load := calculate_load arrays
  if current_load ≤ available_power then (arrays, st.last_shed_time, [], current_load - available_power)
  else
    shed_loop now (get_all_leds_sorted_by_priority arrays) arrays st.last_shed_time
      (current_load - available_power)

/-- One entry of the restore pass trace: the `(array_id, led.id)` pair
appended to `leds_to_restore`, the LED's priority, and the
`estimated_power` the source computes and logs in the restore event. -/
structure RestoreStep where
  array_id : String
  led_id : String
  priority : ℤ
  estimated_power : ℚ
deriving DecidableEq, Inhabited

/-- The `for array_id, led in all_leds` loop of `restore_leds`, threading the
mutable state (arrays, `surplus_start_time`, `surplus`). -/
def restore_loop (now delay : ℚ) :
    List (ℕ × ℕ) → List ArrayStatus → TimeMap → ℚ →
      List ArrayStatus × TimeMap × List RestoreStep × ℚ
  | [], arrays, sst, surplus => (arrays, sst, [], surplus)
  | p :: rest, arrays, sst, surplus =>
    let led := ledAt arrays p
    if led.is_on = true then restore_loop now delay rest arrays sst surplus
    else
      let aid := (arrays.getD p.1 default).id
      let key := (aid, led.id)
      match dictLookup sst key with
      | none => restore_loop now delay rest arrays (dictSet sst key now) surplus
      | some t0 =>
        if now - t0 < delay then restore_loop now delay rest arrays sst surplus
        else
          let arr := findArray arrays aid
          let estimated_power := led.intensity_limit_pct / 100 * arr.duty *
            (arr.max_current_a * arr.nominal_voltage_v / (arr.leds.length : ℚ))
          if surplus < estimated_power then restore_loop now delay rest arrays sst surplus
          else
            let arrays2 := setLed arrays p (restoreOn arr.duty)
            let r := restore_loop now delay rest arrays2 (dictErase sst key) (surplus - estimated_power)
            (r.1, r.2.1, ⟨aid, led.id, led.priority, estimated_power⟩ :: r.2.2.1, r.2.2.2)

/-- Shallow embedding of `PowerAllocator.restore_leds` (power_allocator.py
lines 85-148).  Returns the mutated arrays, the updated `surplus_start_time`,
the restore trace — whose `(array_id, led_id)` projection is the Python
return value — and the final value of `surplus`. -/
def restore_leds (st : PowerAllocatorState) (arrays : List ArrayStatus)
    (pv_w battery_w_available now : ℚ) :
    List ArrayStatus × TimeMap × List RestoreStep × ℚ :=
  let available_power := pv_w + battery_w_available
  let current_load := calculate_load arrays
  let surplus := available_power - current_load
  let required_surplus := available_power * (st.restore_hysteresis_pct / 100)
  if surplus ≤ required_surplus then (arrays, [], [], surplus)
  else
    restore_loop now st.restore_delay_s (get_all_leds_sorted_by_priority arrays).reverse
      arrays st.surplus_start_time surplus

theorem updateAt_length {α : Type} (l : List α) (i : ℕ) (f : α → α) :
    (updateAt l i f).length = l.length := by
  induction l generalizing i with
  | nil => rfl
  | cons x xs ih =>
    cases i with
    | zero => rfl
    | succ n => simp only [updateAt, List.length_cons, ih]

theorem getD_oob {α : Type} (l : List α) (i : ℕ) (d : α) (h : l.length ≤ i) :
    l.getD i d = d := by
  induction l generalizing i with
  | nil => cases i <;> rfl
  | cons x xs ih =>
    cases i with
    | zero => exact absurd h (by simp)
    | succ n => simpa using ih n (by simpa using h)

theorem updateAt_oob {α : Type} (l : List α) (i : ℕ) (f : α → α) (h : l.length ≤ i) :
    updateAt l i f = l := by
  induction l generalizing i with
  | nil => rfl
  | cons x xs ih =>
    cases i with
    | zero => exact absurd h (by simp)
    | succ n => simpa [updateAt] using ih n (by simpa using h)

theorem getD_updateAt_ne {α : Type} (l : List α) (i j : ℕ) (f : α → α) (d : α)
    (h : j ≠ i) : (updateAt l i f).getD j d = l.getD j d := by
  induction l generalizing i j with
  | nil => rfl
  | cons x xs ih =>
    cases i with
    | zero =>
      cases j with
      | zero => exact absurd rfl h
      | succ m => simp [updateAt]
    | succ n =>
      cases j with
      | zero => rfl
      | succ m => simpa [updateAt] using ih n m (fun he => h (by rw [he]))

theorem getD_updateAt_self {α : Type} (l : List α) (i : ℕ) (f : α → α) (d : α)
    (h : i < l.length) : (updateAt l i f).getD i d = f (l.getD i d) := by
  induction l generalizing i with
  | nil => exact absurd h (by simp)
  | cons x xs ih =>
    cases i with
    | zero => rfl
    | succ n => simpa [updateAt] using ih n (by simpa using h)

theorem setLed_oob (arrays : List ArrayStatus) (p : ℕ × ℕ) (f : LED → LED)
    (h : arrays.length ≤ p.1) : setLed arrays p f = arrays :=
  updateAt_oob arrays p.1 _ h

theorem ledAt_setLed_ne (arrays : List ArrayStatus) (p q : ℕ × ℕ) (f : LED → LED)
    (h : q ≠ p) : ledAt (setLed arrays p f) q = ledAt arrays q := by
  by_cases h1 : q.1 = p.1
  · have h2 : q.2 ≠ p.2 := fun h2 => h (Prod.ext h1 h2)
    by_cases hlen : p.1 < arrays.length
    · unfold ledAt setLed
      rw [h1, getD_updateAt_self arrays p.1 _ default hlen]
      exact getD_updateAt_ne _ _ _ _ _ h2
    · rw [setLed_oob arrays p f (by omega)]
  · unfold ledAt setLed
    rw [getD_updateAt_ne arrays p.1 q.1 _ default h1]

theorem ledAt_setLed_self (arrays : List ArrayStatus) (p : ℕ × ℕ) (f : LED → LED)
    (h1 : p.1 < arrays.length) (h2 : p.2 < (arrays.getD p.1 default).leds.length) :
    ledAt (setLed arrays p f) p = f (ledAt arrays p) := by
  unfold ledAt setLed
  rw [getD_updateAt_self arrays p.1 _ default h1]
  exact getD_updateAt_self _ _ _ _ h2

theorem isOn_valid (arrays : List ArrayStatus) (p : ℕ × ℕ)
    (h : (ledAt arrays p).is_on = true) :
    p.1 < arrays.length ∧ p.2 < (arrays.getD p.1 default).leds.length := by
  constructor
  · by_contra hc
    push_neg at hc
    have hd : arrays.getD p.1 default = default := getD_oob _ _ _ hc
    rw [ledAt, hd] at h
    have : ((default : ArrayStatus).leds.getD p.2 default).is_on = false := by
      cases p.2 <;> rfl
    rw [this] at h
    cases h
  · by_contra hc
    push_neg at hc
    have hd : (arrays.getD p.1 default).leds.getD p.2 default = default :=
      getD_oob _ _ _ hc
    rw [ledAt, hd] at h
    cases h

theorem ledAt_setLed_priority (arrays : List ArrayStatus) (p q : ℕ × ℕ) (f : LED → LED)
    (hf : ∀ l, (f l).priority = l.priority) :
    (ledAt (setLed arrays p f) q).priority = (ledAt arrays q).priority := by
  by_cases hq : q = p
  · subst hq
    by_cases h1 : q.1 < arrays.length
    · by_cases h2 : q.2 < (arrays.getD q.1 default).leds.length
      · rw [ledAt_setLed_self arrays q f h1 h2, hf]
      · push_neg at h2
        have hl : ledAt (setLed arrays q f) q = default := by
          unfold ledAt setLed
          rw [getD_updateAt_self arrays q.1 _ default h1]
          exact getD_oob _ _ _ (by simpa [updateAt_length] using h2)
        have hr : ledAt arrays q = default := getD_oob _ _ _ h2
        rw [hl, hr]
    · push_neg at h1
      rw [setLed_oob arrays q f h1]
  · rw [ledAt_setLed_ne arrays p q f hq]

theorem isOn_setLed_off (arrays : List ArrayStatus) (p q : ℕ × ℕ) (f : LED → LED)
    (hf : ∀ l, (f l).is_on = false)
    (h : (ledAt (setLed arrays p f) q).is_on = true) : (ledAt arrays q).is_on = true := by
  by_cases hq : q = p
  · subst hq
    by_cases h1 : q.1 < arrays.length
    · by_cases h2 : q.2 < (arrays.getD q.1 default).leds.length
      · rw [ledAt_setLed_self arrays q f h1 h2, hf] at h
        cases h
      · push_neg at h2
        have hl : ledAt (setLed arrays q f) q = default := by
          unfold ledAt setLed
          rw [getD_updateAt_self arrays q.1 _ default h1]
          exact getD_oob _ _ _ (by simpa [updateAt_length] using h2)
        rw [hl] at h
        cases h
    · push_neg at h1
      rwa [setLed_oob arrays q f h1] at h
  · rwa [ledAt_setLed_ne arrays p q f hq] at h

theorem isOff_setLed_on (arrays : List ArrayStatus) (p q : ℕ × ℕ) (f : LED → LED)
    (hf : ∀ l, (f l).is_on = true)
    (h : (ledAt (setLed arrays p f) q).is_on = false) : (ledAt arrays q).is_on = false := by
  cases h2 : (ledAt arrays q).is_on
  · rfl
  · by_cases hq : q = p
    · subst hq
      rcases isOn_valid arrays q h2 with ⟨hv1, hv2⟩
      rw [ledAt_setLed_self arrays q f hv1 hv2, hf] at h
      cases h
    · rw [ledAt_setLed_ne arrays p q f hq, h2] at h
      cases h

theorem shed_loop_priority (now : ℚ) (pairs : List (ℕ × ℕ)) :
    ∀ (arrays : List ArrayStatus) (lst : TimeMap) (deficit : ℚ) (q : ℕ × ℕ),
      (ledAt (shed_loop now pairs arrays lst deficit).1 q).priority =
        (ledAt arrays q).priority := by
  induction pairs with
  | nil => intro arrays lst deficit q; rfl
  | cons p rest ih =>
    intro arrays lst deficit q
    rw [shed_loop]
    dsimp only
    split_ifs with h1 h2
    · exact ih arrays lst deficit q
    · exact ledAt_setLed_priority arrays p q shedOff (fun l => rfl)
    · dsimp only
      rw [ih _ _ _ q]
      exact ledAt_setLed_priority arrays p q shedOff (fun l => rfl)

theorem shed_loop_isOn_mono (now : ℚ) (pairs : List (ℕ × ℕ)) :
    ∀ (arrays : List ArrayStatus) (lst : TimeMap) (deficit : ℚ) (q : ℕ × ℕ),
      (ledAt (shed_loop now pairs arrays lst deficit).1 q).is_on = true →
        (ledAt arrays q).is_on = true := by
  induction pairs with
  | nil => intro arrays lst deficit q h; exact h
  | cons p rest ih =>
    intro arrays lst deficit q h
    rw [shed_loop] at h
    dsimp only at h
    split_ifs at h with h1 h2
    · exact ih arrays lst deficit q h
    · exact isOn_setLed_off arrays p q shedOff (fun l => rfl) h
    · exact isOn_setLed_off arrays p q shedOff (fun l => rfl) (ih _ _ _ q h)

theorem shed_loop_isOn_off (now : ℚ) (pairs : List (ℕ × ℕ))
    (arrays : List ArrayStatus) (lst : TimeMap) (deficit : ℚ) (q : ℕ × ℕ)
    (h : (ledAt arrays q).is_on = false) :
    (ledAt (shed_loop now pairs arrays lst deficit).1 q).is_on = false := by
  cases h2 : (ledAt (shed_loop now pairs arrays lst deficit).1 q).is_on
  · rfl
  · rw [shed_loop_isOn_mono now pairs arrays lst deficit q h2] at h
    cases h

theorem shed_loop_order (now : ℚ) (pairs : List (ℕ × ℕ)) :
    ∀ (arrays : List ArrayStatus) (lst : TimeMap) (deficit : ℚ),
      pairs.Pairwise (fun p q => (ledAt arrays q).priority ≤ (ledAt arrays p).priority) →
      ∀ s ∈ (shed_loop now pairs arrays lst deficit).2.2.1, ∀ q ∈ pairs,
        (ledAt (shed_loop now pairs arrays lst deficit).1 q).is_on = true →
        (ledAt (shed_loop now pairs arrays lst deficit).1 q).priority ≤ s.priority := by
  induction pairs with
  | nil => intro arrays lst deficit _ s hs; cases hs
  | cons p rest ih =>
    intro arrays lst deficit hpw s hs q hq hon
    rcases List.pairwise_cons.mp hpw with ⟨hphead, hptail⟩
    rw [shed_loop] at hs hon ⊢
    dsimp only at hs hon ⊢
    split_ifs at hs hon ⊢ with h1 h2
    · rcases List.mem_cons.mp hq with rfl | hq2
      · have hcontra := shed_loop_isOn_mono now rest arrays lst deficit q hon
        rw [h1] at hcontra
        cases hcontra
      · exact ih arrays lst deficit hptail s hs q hq2 hon
    · dsimp only at hs hon ⊢
      have hon2 : (ledAt arrays p).is_on = true := by
        cases hb : (ledAt arrays p).is_on
        · exact absurd hb h1
        · rfl
      rcases isOn_valid arrays p hon2 with ⟨hv1, hv2⟩
      rcases List.mem_cons.mp hs with rfl | hs2
      · rcases List.mem_cons.mp hq with rfl | hq2
        · rw [ledAt_setLed_self arrays q shedOff hv1 hv2] at hon
          cases hon
        · rw [ledAt_setLed_priority arrays p q shedOff (fun l => rfl)]
          exact hphead q hq2
      · cases hs2
    · dsimp only at hs hon ⊢
      have hon2 : (ledAt arrays p).is_on = true := by
        cases hb : (ledAt arrays p).is_on
        · exact absurd hb h1
        · rfl
      rcases isOn_valid arrays p hon2 with ⟨hv1, hv2⟩
      have hoffp : (ledAt (setLed arrays p shedOff) p).is_on = false := by
        rw [ledAt_setLed_self arrays p shedOff hv1 hv2]
        rfl
      rcases List.mem_cons.mp hs with rfl | hs2
      · rcases List.mem_cons.mp hq with rfl | hq2
        · have hc := shed_loop_isOn_mono now rest _ _ _ q hon
          rw [hoffp] at hc
          cases hc
        · rw [shed_loop_priority, ledAt_setLed_priority arrays p q shedOff (fun l => rfl)]
          exact hphead q hq2
      · rcases List.mem_cons.mp hq with rfl | hq2
        · have hc := shed_loop_isOn_mono now rest _ _ _ q hon
          rw [hoffp] at hc
          cases hc
        · have hptail2 : rest.Pairwise (fun a b =>
              (ledAt (setLed arrays p shedOff) b).priority ≤
              (ledAt (setLed arrays p shedOff) a).priority) := by
            refine hptail.imp ?_
            intro a b hab
            rw [ledAt_setLed_priority arrays p a shedOff (fun l => rfl),
              ledAt_setLed_priority arrays p b shedOff (fun l => rfl)]
            exact hab
          exact ih _ _ _ hptail2 s hs2 q hq2 hon

theorem shed_loop_covered (now : ℚ) (pairs : List (ℕ × ℕ)) :
    ∀ (arrays : List ArrayStatus) (lst : TimeMap) (deficit : ℚ),
      (shed_loop now pairs arrays lst deficit).2.2.2 ≤ 0 ∨
      ∀ q ∈ pairs, (ledAt (shed_loop now pairs arrays lst deficit).1 q).is_on = false := by
  induction pairs with
  | nil => intro arrays lst deficit; right; intro q hq; cases hq
  | cons p rest ih =>
    intro arrays lst deficit
    rw [shed_loop]
    dsimp only
    split_ifs with h1 h2
    · rcases ih arrays lst deficit with hd | hoff
      · exact Or.inl hd
      · right
        intro q hq
        rcases List.mem_cons.mp hq with rfl | hq2
        · exact shed_loop_isOn_off now rest arrays lst deficit q h1
        · exact hoff q hq2
    · exact Or.inl h2
    · have hon2 : (ledAt arrays p).is_on = true := by
        cases hb : (ledAt arrays p).is_on
        · exact absurd hb h1
        · rfl
      rcases isOn_valid arrays p hon2 with ⟨hv1, hv2⟩
      have hoffp : (ledAt (setLed arrays p shedOff) p).is_on = false := by
        rw [ledAt_setLed_self arrays p shedOff hv1 hv2]
        rfl
      rcases ih (setLed arrays p shedOff)
          (dictSet lst ((arrays.getD p.1 default).id, (ledAt arrays p).id) now)
          (deficit - (ledAt arrays p).current_intensity_pct / 100 *
            ((findArray arrays (arrays.getD p.1 default).id).power_w /
              (onCount (findArray arrays (arrays.getD p.1 default).id) : ℚ))) with hd | hoff
      · exact Or.inl hd
      · right
        intro q hq
        rcases List.mem_cons.mp hq with rfl | hq2
        · exact shed_loop_isOn_off now rest _ _ _ q hoffp
        · exact hoff q hq2

theorem shed_loop_deficit (now : ℚ) (pairs : List (ℕ × ℕ)) :
    ∀ (arrays : List ArrayStatus) (lst : TimeMap) (deficit : ℚ),
      (shed_loop now pairs arrays lst deficit).2.2.2 =
        deficit - (((shed_loop now pairs arrays lst deficit).2.2.1).map
          (fun s => s.led_power)).sum := by
  induction pairs with
  | nil => intro arrays lst deficit; simp [shed_loop]
  | cons p rest ih =>
    intro arrays lst deficit
    rw [shed_loop]
    dsimp only
    split_ifs with h1 h2
    · exact ih arrays lst deficit
    · simp
    · dsimp only
      rw [ih]
      simp only [List.map_cons, List.sum_cons]
      ring

theorem shed_loop_predeficit (now : ℚ) (pairs : List (ℕ × ℕ)) :
    ∀ (arrays : List ArrayStatus) (lst : TimeMap) (deficit : ℚ), 0 < deficit →
      ∀ n < (shed_loop now pairs arrays lst deficit).2.2.1.length,
        0 < deficit - ((((shed_loop now pairs arrays lst deficit).2.2.1).take n).map
          (fun s => s.led_power)).sum := by
  induction pairs with
  | nil => intro arrays lst deficit _ n hn; cases hn
  | cons p rest ih =>
    intro arrays lst deficit hpos n hn
    rw [shed_loop] at hn ⊢
    dsimp only at hn ⊢
    split_ifs at hn ⊢ with h1 h2
    · exact ih arrays lst deficit hpos n hn
    · dsimp only at hn ⊢
      have hn0 : n = 0 := by
        simp only [List.length_cons, List.length_nil] at hn
        omega
      subst hn0
      simpa using hpos
    · push_neg at h2
      dsimp only at hn ⊢
      cases n with
      | zero => simpa using hpos
      | succ m =>
        have hm := ih (setLed arrays p shedOff)
          (dictSet lst ((arrays.getD p.1 default).id, (ledAt arrays p).id) now)
          (deficit - (ledAt arrays p).current_intensity_pct / 100 *
            ((findArray arrays (arrays.getD p.1 default).id).power_w /
              (onCount (findArray arrays (arrays.getD p.1 default).id) : ℚ)))
          h2 m (by simp only [List.length_cons] at hn; omega)
        simp only [List.take_succ_cons, List.map_cons, List.sum_cons]
        linarith [hm]

/-- C1 (amended): in a shed pass whose load exceeds the available supply,
on-loads are turned off in descending priority order — a load with a lower
priority value is never turned off while an on-load with a higher priority
value remains on among the enabled arrays — and shedding stops as soon as
the accumulated shed wattage covers the deficit or no on-loads remain: the
final deficit is the initial one minus all shed wattage, every load still on
has priority at most that of every shed load, either the deficit ends
covered or every load of the pass is off, and each shed happens strictly
before the accumulated wattage covers the deficit. -/
theorem shed_leds_descending_priority (st : PowerAllocatorState)
    (arrays : List ArrayStatus) (pv_w battery_w_available now : ℚ)
    (hload : pv_w + battery_w_available < calculate_load arrays) :
    (∀ s ∈ (shed_leds st arrays pv_w battery_w_available now).2.2.1,
        ∀ q ∈ get_all_leds_sorted_by_priority arrays,
          (ledAt (shed_leds st arrays pv_w battery_w_available now).1 q).is_on = true →
          (ledAt (shed_leds st arrays pv_w battery_w_available now).1 q).priority ≤ s.priority)
    ∧ ((shed_leds st arrays pv_w battery_w_available now).2.2.2 ≤ 0 ∨
        ∀ q ∈ get_all_leds_sorted_by_priority arrays,
          (ledAt (shed_leds st arrays pv_w battery_w_available now).1 q).is_on = false)
    ∧ (shed_leds st arrays pv_w battery_w_available now).2.2.2 =
        (calculate_load arrays - (pv_w + battery_w_available)) -
          (((shed_leds st arrays pv_w battery_w_available now).2.2.1).map
            (fun s => s.led_power)).sum
    ∧ ∀ n < (shed_leds st arrays pv_w battery_w_available now).2.2.1.length,
        0 < (calculate_load arrays - (pv_w + battery_w_available)) -
          ((((shed_leds st arrays pv_w battery_w_available now).2.2.1).take n).map
            (fun s => s.led_power)).sum := by
  have hns : ¬ calculate_load arrays ≤ pv_w + battery_w_available := not_le_of_lt hload
  have hre : shed_leds st arrays pv_w battery_w_available now =
      shed_loop now (get_all_leds_sorted_by_priority arrays) arrays st.last_shed_time
        (calculate_load arrays - (pv_w + battery_w_available)) := by
    rw [shed_leds, if_neg hns]
  rw [hre]
  have hsorted : (get_all_leds_sorted_by_priority arrays).Pairwise
      (fun p q => (ledAt arrays q).priority ≤ (ledAt arrays p).priority) :=
    List.sorted_insertionSort (prioGE arrays) (enumLeds arrays)
  exact ⟨shed_loop_order now _ arrays _ _ hsorted,
    shed_loop_covered now _ arrays _ _,
    shed_loop_deficit now _ arrays _ _,
    shed_loop_predeficit now _ arrays _ _ (by linarith)⟩

theorem find_dictErase_ne (m : TimeMap) (k k2 : String × String) (h : k2 ≠ k) :
    (dictErase m k).find? (fun e => decide (e.1 = k2)) =
      m.find? (fun e => decide (e.1 = k2)) := by
  induction m with
  | nil => rfl
  | cons e rest ih =>
    by_cases he : e.1 = k
    · have h1 : (e :: rest).find? (fun e => decide (e.1 = k2)) =
          rest.find? (fun e => decide (e.1 = k2)) := by
        rw [List.find?_cons_of_neg]
        simp only [decide_eq_true_eq]
        rw [he]
        exact fun hc => h hc.symm
      have h2 : dictErase (e :: rest) k = dictErase rest k := by
        simp [dictErase, List.filter_cons, he]
      rw [h1, h2, ih]
    · have h2 : dictErase (e :: rest) k = e :: dictErase rest k := by
        simp [dictErase, List.filter_cons, he]
      rw [h2]
      by_cases hk2 : e.1 = k2
      · rw [List.find?_cons_of_pos, List.find?_cons_of_pos] <;> simp [hk2]
      · rw [List.find?_cons_of_neg, List.find?_cons_of_neg, ih] <;> simp [hk2]

theorem dictLookup_set_self (m : TimeMap) (k : String × String) (v : ℚ) :
    dictLookup (dictSet m k v) k = some v := by
  simp [dictSet, dictLookup]

theorem dictLookup_set_ne (m : TimeMap) (k k2 : String × String) (v : ℚ) (h : k2 ≠ k) :
    dictLookup (dictSet m k v) k2 = dictLookup m k2 := by
  unfold dictLookup dictSet
  rw [List.find?_cons_of_neg _ (by simpa using fun hc => h hc.symm),
    find_dictErase_ne m k k2 h]

theorem dictLookup_erase_self (m : TimeMap) (k : String × String) :
    dictLookup (dictErase m k) k = none := by
  rw [dictLookup, Option.map_eq_none', List.find?_eq_none]
  intro e he
  rcases List.mem_filter.mp he with ⟨_, hkeep⟩
  simpa using of_decide_eq_true (by simpa using hkeep)

theorem dictLookup_erase_ne (m : TimeMap) (k k2 : String × String) (h : k2 ≠ k) :
    dictLookup (dictErase m k) k2 = dictLookup m k2 := by
  rw [dictLookup, dictLookup, find_dictErase_ne m k k2 h]

theorem restore_loop_delay_elapsed (now delay : ℚ) (hdelay : 0 < delay)
    (sst0 : TimeMap) (pairs : List (ℕ × ℕ)) :
    ∀ (arrays : List ArrayStatus) (sst : TimeMap) (surplus : ℚ),
      (∀ k v, dictLookup sst k = some v → dictLookup sst0 k = some v ∨ v = now) →
      ∀ s ∈ (restore_loop now delay pairs arrays sst surplus).2.2.1,
        ∃ t0, dictLookup sst0 (s.array_id, s.led_id) = some t0 ∧ delay ≤ now - t0 := by
  induction pairs with
  | nil => intro arrays sst surplus _ s hs; cases hs
  | cons p rest ih =>
    intro arrays sst surplus hinv s hs
    rw [restore_loop] at hs
    dsimp only at hs
    by_cases h1 : (ledAt arrays p).is_on = true
    · rw [if_pos h1] at hs
      exact ih arrays sst surplus hinv s hs
    · rw [if_neg h1] at hs
      rcases hkey : dictLookup sst ((arrays.getD p.1 default).id, (ledAt arrays p).id)
        with _ | t0
      · rw [hkey] at hs
        dsimp only at hs
        refine ih arrays _ surplus ?_ s hs
        intro k v hkv
        by_cases hk : k = ((arrays.getD p.1 default).id, (ledAt arrays p).id)
        · subst hk
          rw [dictLookup_set_self] at hkv
          exact Or.inr (Option.some.inj hkv).symm
        · rw [dictLookup_set_ne _ _ _ _ hk] at hkv
          exact hinv k v hkv
      · rw [hkey] at hs
        dsimp only at hs
        split_ifs at hs with h2 h3
        · exact ih arrays sst surplus hinv s hs
        · exact ih arrays sst surplus hinv s hs
        · dsimp only at hs
          push_neg at h2
          rcases List.mem_cons.mp hs with rfl | hs2
          · dsimp only
            rcases hinv _ _ hkey with hini | hnow
            · exact ⟨t0, hini, h2⟩
            · exact absurd (by rw [hnow]; linarith : now - t0 < delay) (not_lt_of_le h2)
          · refine ih _ _ _ ?_ s hs2
            intro k v hkv
            by_cases hk : k = ((arrays.getD p.1 default).id, (ledAt arrays p).id)
            · subst hk
              rw [dictLookup_erase_self] at hkv
              cases hkv
            · rw [dictLookup_erase_ne _ _ _ hk] at hkv
              exact hinv k v hkv

theorem restore_loop_empty_timer (now delay : ℚ) (hdelay : 0 < delay)
    (pairs : List (ℕ × ℕ)) :
    ∀ (arrays : List ArrayStatus) (sst : TimeMap) (surplus : ℚ),
      (∀ k v, dictLookup sst k = some v → v = now) →
      (restore_loop now delay pairs arrays sst surplus).2.2.1 = [] := by
  induction pairs with
  | nil => intro arrays sst surplus _; rfl
  | cons p rest ih =>
    intro arrays sst surplus hinv
    rw [restore_loop]
    dsimp only
    by_cases h1 : (ledAt arrays p).is_on = true
    · rw [if_pos h1]
      exact ih arrays sst surplus hinv
    · rw [if_neg h1]
      rcases hkey : dictLookup sst ((arrays.getD p.1 default).id, (ledAt arrays p).id)
        with _ | t0
      · dsimp only
        refine ih arrays _ surplus ?_
        intro k v hkv
        by_cases hk : k = ((arrays.getD p.1 default).id, (ledAt arrays p).id)
        · subst hk
          rw [dictLookup_set_self] at hkv
          exact (Option.some.inj hkv).symm
        · rw [dictLookup_set_ne _ _ _ _ hk] at hkv
          exact hinv k v hkv
      · dsimp only
        have ht0 : t0 = now := hinv _ _ hkey
        subst ht0
        rw [if_pos (by linarith)]
        exact ih arrays sst surplus hinv

theorem restore_loop_steps_from (now delay : ℚ) (pairs : List (ℕ × ℕ)) :
    ∀ (arrays : List ArrayStatus) (sst : TimeMap) (surplus : ℚ),
      ∀ s ∈ (restore_loop now delay pairs arrays sst surplus).2.2.1,
        ∃ q ∈ pairs, s.priority = (ledAt arrays q).priority ∧
          (ledAt arrays q).is_on = false := by
  induction pairs with
  | nil => intro arrays sst surplus s hs; cases hs
  | cons p rest ih =>
    intro arrays sst surplus s hs
    rw [restore_loop] at hs
    dsimp only at hs
    by_cases h1 : (ledAt arrays p).is_on = true
    · rw [if_pos h1] at hs
      rcases ih arrays sst surplus s hs with ⟨q, hq, hpr, hoff⟩
      exact ⟨q, List.mem_cons_of_mem _ hq, hpr, hoff⟩
    · rw [if_neg h1] at hs
      have hoffp : (ledAt arrays p).is_on = false := by
        cases hb : (ledAt arrays p).is_on
        · rfl
        · exact absurd hb h1
      rcases hkey : dictLookup sst ((arrays.getD p.1 default).id, (ledAt arrays p).id)
        with _ | t0
      · rw [hkey] at hs
        dsimp only at hs
        rcases ih arrays _ surplus s hs with ⟨q, hq, hpr, hoff⟩
        exact ⟨q, List.mem_cons_of_mem _ hq, hpr, hoff⟩
      · rw [hkey] at hs
        dsimp only at hs
        split_ifs at hs with h2 h3
        · rcases ih arrays sst surplus s hs with ⟨q, hq, hpr, hoff⟩
          exact ⟨q, List.mem_cons_of_mem _ hq, hpr, hoff⟩
        · rcases ih arrays sst surplus s hs with ⟨q, hq, hpr, hoff⟩
          exact ⟨q, List.mem_cons_of_mem _ hq, hpr, hoff⟩
        · dsimp only at hs
          rcases List.mem_cons.mp hs with rfl | hs2
          · exact ⟨p, List.mem_cons_self _ _, rfl, hoffp⟩
          · rcases ih _ _ _ s hs2 with ⟨q, hq, hpr, hoff⟩
            refine ⟨q, List.mem_cons_of_mem _ hq, ?_, ?_⟩
            · rw [hpr]
              exact ledAt_setLed_priority arrays p q
                (restoreOn (findArray arrays (arrays.getD p.1 default).id).duty) (fun l => rfl)
            · exact isOff_setLed_on arrays p q
                (restoreOn (findArray arrays (arrays.getD p.1 default).id).duty) (fun l => rfl) hoff

theorem restore_loop_ascending (now delay : ℚ) (pairs : List (ℕ × ℕ)) :
    ∀ (arrays : List ArrayStatus) (sst : TimeMap) (surplus : ℚ),
      pairs.Pairwise (fun p q => (ledAt arrays p).priority ≤ (ledAt arrays q).priority) →
      ((restore_loop now delay pairs arrays sst surplus).2.2.1).Pairwise
        (fun s t => s.priority ≤ t.priority) := by
  induction pairs with
  | nil => intro arrays sst surplus _; exact List.Pairwise.nil
  | cons p rest ih =>
    intro arrays sst surplus hpw
    rcases List.pairwise_cons.mp hpw with ⟨hphead, hptail⟩
    rw [restore_loop]
    dsimp only
    by_cases h1 : (ledAt arrays p).is_on = true
    · rw [if_pos h1]
      exact ih arrays sst surplus hptail
    · rw [if_neg h1]
      rcases hkey : dictLookup sst ((arrays.getD p.1 default).id, (ledAt arrays p).id)
        with _ | t0
      · dsimp only
        exact ih arrays _ surplus hptail
      · dsimp only
        split_ifs with h2 h3
        · exact ih arrays sst surplus hptail
        · exact ih arrays sst surplus hptail
        · dsimp only
          have hptail2 : rest.Pairwise (fun a b =>
              (ledAt (setLed arrays p (restoreOn (findArray arrays
                (arrays.getD p.1 default).id).duty)) a).priority ≤
              (ledAt (setLed arrays p (restoreOn (findArray arrays
                (arrays.getD p.1 default).id).duty)) b).priority) := by
            refine hptail.imp ?_
            intro a b hab
            rw [ledAt_setLed_priority arrays p a
                (restoreOn (findArray arrays (arrays.getD p.1 default).id).duty) (fun l => rfl),
              ledAt_setLed_priority arrays p b
                (restoreOn (findArray arrays (arrays.getD p.1 default).id).duty) (fun l => rfl)]
            exact hab
          refine List.pairwise_cons.mpr ⟨?_, ih _ _ _ hptail2⟩
          intro t ht
          rcases restore_loop_steps_from now delay rest _ _ _ t ht with ⟨q, hq, hpr, _⟩
          rw [hpr, ledAt_setLed_priority arrays p q
            (restoreOn (findArray arrays (arrays.getD p.1 default).id).duty) (fun l => rfl)]
          exact hphead q hq

theorem restore_loop_surplus_bound (now delay : ℚ) (pairs : List (ℕ × ℕ)) :
    ∀ (arrays : List ArrayStatus) (sst : TimeMap) (surplus : ℚ),
      ∀ n < (restore_loop now delay pairs arrays sst surplus).2.2.1.length,
        (((restore_loop now delay pairs arrays sst surplus).2.2.1).getD n
            default).estimated_power ≤
          surplus - ((((restore_loop now delay pairs arrays sst surplus).2.2.1).take n).map
            (fun s => s.estimated_power)).sum := by
  induction pairs with
  | nil => intro arrays sst surplus n hn; cases hn
  | cons p rest ih =>
    intro arrays sst surplus n hn
    rw [restore_loop] at hn ⊢
    dsimp only at hn ⊢
    by_cases h1 : (ledAt arrays p).is_on = true
    · rw [if_pos h1] at hn ⊢
      exact ih arrays sst surplus n hn
    · rw [if_neg h1] at hn ⊢
      rcases hkey : dictLookup sst ((arrays.getD p.1 default).id, (ledAt arrays p).id)
        with _ | t0
      · rw [hkey] at hn
        dsimp only at hn ⊢
        exact ih arrays _ surplus n hn
      · rw [hkey] at hn
        dsimp only at hn ⊢
        split_ifs at hn ⊢ with h2 h3
        · exact ih arrays sst surplus n hn
        · exact ih arrays sst surplus n hn
        · dsimp only at hn ⊢
          push_neg at h3
          cases n with
          | zero => simpa using h3
          | succ m =>
            have hm := ih (setLed arrays p (restoreOn (findArray arrays
                (arrays.getD p.1 default).id).duty))
              (dictErase sst ((arrays.getD p.1 default).id, (ledAt arrays p).id))
              (surplus - (ledAt arrays p).intensity_limit_pct / 100 *
                (findArray arrays (arrays.getD p.1 default).id).duty *
                ((findArray arrays (arrays.getD p.1 default).id).max_current_a *
                  (findArray arrays (arrays.getD p.1 default).id).nominal_voltage_v /
                  ((findArray arrays (arrays.getD p.1 default).id).leds.length : ℚ)))
              m (by simp only [List.length_cons] at hn; omega)
            simp only [List.take_succ_cons, List.map_cons, List.sum_cons, List.getD_cons_succ]
            linarith [hm]

theorem restore_loop_surplus_total (now delay : ℚ) (pairs : List (ℕ × ℕ)) :
    ∀ (arrays : List ArrayStatus) (sst : TimeMap) (surplus : ℚ),
      (restore_loop now delay pairs arrays sst surplus).2.2.2 =
        surplus - (((restore_loop now delay pairs arrays sst surplus).2.2.1).map
          (fun s => s.estimated_power)).sum := by
  induction pairs with
  | nil => intro arrays sst surplus; simp [restore_loop]
  | cons p rest ih =>
    intro arrays sst surplus
    rw [restore_loop]
    dsimp only
    by_cases h1 : (ledAt arrays p).is_on = true
    · rw [if_pos h1]
      exact ih arrays sst surplus
    · rw [if_neg h1]
      rcases hkey : dictLookup sst ((arrays.getD p.1 default).id, (ledAt arrays p).id)
        with _ | t0
      · dsimp only
        exact ih arrays _ surplus
      · dsimp only
        split_ifs with h2 h3
        · exact ih arrays sst surplus
        · exact ih arrays sst surplus
        · dsimp only
          rw [ih]
          simp only [List.map_cons, List.sum_cons]
          ring

/-- C2 (amended): in every restore pass the off-loads are considered in
ascending priority order (lowest priority value first): the sequence of
restored loads has non-decreasing priority, and every restored load was an
off-load of the pass's enabled arrays. -/
theorem restore_leds_ascending_priority (st : PowerAllocatorState)
    (arrays : List ArrayStatus) (pv_w battery_w_available now : ℚ) :
    ((restore_leds st arrays pv_w battery_w_available now).2.2.1).Pairwise
      (fun s t => s.priority ≤ t.priority)
    ∧ ∀ s ∈ (restore_leds st arrays pv_w battery_w_available now).2.2.1,
        ∃ q ∈ (get_all_leds_sorted_by_priority arrays).reverse,
          s.priority = (ledAt arrays q).priority ∧ (ledAt arrays q).is_on = false := by
  rw [restore_leds]
  split_ifs with hg
  · refine ⟨List.Pairwise.nil, ?_⟩
    intro s hs
    cases hs
  · have hsorted : (get_all_leds_sorted_by_priority arrays).Pairwise
        (fun p q => (ledAt arrays q).priority ≤ (ledAt arrays p).priority) :=
      List.sorted_insertionSort (prioGE arrays) (enumLeds arrays)
    have hasc : ((get_all_leds_sorted_by_priority arrays).reverse).Pairwise
        (fun p q => (ledAt arrays p).priority ≤ (ledAt arrays q).priority) :=
      List.pairwise_reverse.mpr hsorted
    exact ⟨restore_loop_ascending now st.restore_delay_s _ arrays st.surplus_start_time _ hasc,
      restore_loop_steps_from now st.restore_delay_s _ arrays st.surplus_start_time _⟩

/-- C5: in every restore pass with a positive restore delay, (i) when the
surplus is at or below the hysteresis threshold, all surplus-observed timers
are cleared and nothing is restored; (ii) a load is restored only when its
surplus-start timestamp was already present in the incoming state and at
least `restore_delay_s` seconds of surplus have elapsed since it; (iii) a
pass starting with no timers (the state right after any below-threshold
pass) restores nothing, so a single dip below the threshold restarts the
delay clock for every pending load. -/
theorem restore_leds_delay_guard (st : PowerAllocatorState)
    (arrays : List ArrayStatus) (pv_w battery_w_available now : ℚ)
    (hdelay : 0 < st.restore_delay_s) :
    ((pv_w + battery_w_available) - calculate_load arrays ≤
        (pv_w + battery_w_available) * (st.restore_hysteresis_pct / 100) →
      (restore_leds st arrays pv_w battery_w_available now).2.2.1 = [] ∧
      (restore_leds st arrays pv_w battery_w_available now).2.1 = [])
    ∧ (∀ s ∈ (restore_leds st arrays pv_w battery_w_available now).2.2.1,
        ∃ t0, dictLookup st.surplus_start_time (s.array_id, s.led_id) = some t0 ∧
          st.restore_delay_s ≤ now - t0)
    ∧ (st.surplus_start_time = [] →
        (restore_leds st arrays pv_w battery_w_available now).2.2.1 = []) := by
  rw [restore_leds]
  split_ifs with hg
  · refine ⟨fun _ => ⟨rfl, rfl⟩, ?_, fun _ => rfl⟩
    intro s hs
    cases hs
  · refine ⟨fun hcond => absurd hcond hg, ?_, ?_⟩
    · exact restore_loop_delay_elapsed now st.restore_delay_s hdelay st.surplus_start_time _
        arrays st.surplus_start_time _ (fun k v h => Or.inl h)
    · intro hempty
      refine restore_loop_empty_timer now st.restore_delay_s hdelay _ arrays
        st.surplus_start_time _ ?_
      intro k v h
      rw [hempty] at h
      simp [dictLookup] at h

/-- C6: in every restore pass each restored load's estimated wattage is at
most the surplus remaining at the moment it is considered (the initial
surplus minus the estimated wattage of the previously restored loads), and
the pass's final surplus is the initial surplus minus the total estimated
wattage of all restored loads. -/
theorem restore_leds_within_surplus (st : PowerAllocatorState)
    (arrays : List ArrayStatus) (pv_w battery_w_available now : ℚ) :
    (∀ n < (restore_leds st arrays pv_w battery_w_available now).2.2.1.length,
        (((restore_leds st arrays pv_w battery_w_available now).2.2.1).getD n
            default).estimated_power ≤
          ((pv_w + battery_w_available) - calculate_load arrays) -
            ((((restore_leds st arrays pv_w battery_w_available now).2.2.1).take n).map
              (fun s => s.estimated_power)).sum)
    ∧ (restore_leds st arrays pv_w battery_w_available now).2.2.2 =
        ((pv_w + battery_w_available) - calculate_load arrays) -
          (((restore_leds st arrays pv_w battery_w_available now).2.2.1).map
            (fun s => s.estimated_power)).sum := by
  rw [restore_leds]
  split_ifs with hg
  · refine ⟨?_, by simp⟩
    intro n hn
    cases hn
  · exact ⟨restore_loop_surplus_bound now st.restore_delay_s _ arrays st.surplus_start_time _,
      restore_loop_surplus_total now st.restore_delay_s _ arrays st.surplus_start_time _⟩

/-- Concrete LED of priority 1 that is on at full intensity. -/
def demoLed1 : LED :=
  { id := "l1", label := "LED 1", intensity_limit_pct := 100, priority := 1,
    is_on := true, current_intensity_pct := 100 }

/-- Concrete LED of priority 5 that is on at full intensity. -/
def demoLed5 : LED :=
  { id := "l5", label := "LED 5", intensity_limit_pct := 100, priority := 5,
    is_on := true, current_intensity_pct := 100 }

/-- One enabled array drawing 100 W with the two LEDs above. -/
def demoArray : ArrayStatus :=
  { id := "a", name := "Array A", enabled := true, duty := 1,
    leds := [demoLed1, demoLed5], power_w := 100, max_current_a := 5,
    nominal_voltage_v := 12 }

/-- Allocator state with the config defaults and empty timing dicts. -/
def demoState : PowerAllocatorState :=
  { target_watts := 400, restore_hysteresis_pct := 10, restore_delay_s := 10,
    last_shed_time := [], surplus_start_time := [] }

theorem shed_leds_demo_eval : shed_leds demoState [demoArray] 60 0 0 =
    ([{ demoArray with leds := [demoLed1,
        { demoLed5 with is_on := false, current_intensity_pct := 0 }] }],
     [(("a", "l5"), 0)],
     [{ array_id := "a", led_id := "l5", priority := 5, led_power := 50 }],
     -10) := by
  norm_num [shed_leds, shed_loop, calculate_load, get_all_leds_sorted_by_priority,
    enumLeds, prioGE, ledAt, setLed, updateAt, findArray, onCount, dictSet, dictErase,
    dictLookup, shedOff, demoState, demoArray, demoLed1, demoLed5,
    List.insertionSort, List.orderedInsert, List.range_succ, List.range_zero,
    List.foldl_cons, List.foldl_nil, List.find?, List.filter]

/-- C1 counterexample: with LEDs of priorities 1 and 5 both on and a deficit
of 40 W, the shed pass turns off the priority-5 LED and stops, leaving the
priority-1 LED on — the pass does not shed in ascending priority order, and a
higher-priority load is turned off while a lower-priority on-load remains. -/
theorem shed_leds_not_ascending :
    ¬ (∀ s ∈ (shed_leds demoState [demoArray] 60 0 0).2.2.1,
        ∀ q ∈ get_all_leds_sorted_by_priority [demoArray],
          (ledAt (shed_leds demoState [demoArray] 60 0 0).1 q).is_on = true →
          s.priority ≤ (ledAt (shed_leds demoState [demoArray] 60 0 0).1 q).priority) := by
  intro hcl
  have hmem : ({ array_id := "a", led_id := "l5", priority := 5, led_power := 50 } : ShedStep)
      ∈ (shed_leds demoState [demoArray] 60 0 0).2.2.1 := by
    rw [shed_leds_demo_eval]
    exact List.mem_cons_self _ _
  have hq : ((0, 0) : ℕ × ℕ) ∈ get_all_leds_sorted_by_priority [demoArray] := by decide
  have hon : (ledAt (shed_leds demoState [demoArray] 60 0 0).1 (0, 0)).is_on = true := by
    rw [shed_leds_demo_eval]
    rfl
  have hpr := hcl _ hmem _ hq hon
  rw [shed_leds_demo_eval] at hpr
  exact absurd hpr (by decide)

/-- C1 witness: the amended claim instantiated on the same concrete pass. -/
theorem shed_leds_descending_priority_witness :
    ((60:ℚ) + 0 < calculate_load [demoArray])
    ∧ ((∀ s ∈ (shed_leds demoState [demoArray] 60 0 0).2.2.1,
          ∀ q ∈ get_all_leds_sorted_by_priority [demoArray],
            (ledAt (shed_leds demoState [demoArray] 60 0 0).1 q).is_on = true →
            (ledAt (shed_leds demoState [demoArray] 60 0 0).1 q).priority ≤ s.priority)
      ∧ ((shed_leds demoState [demoArray] 60 0 0).2.2.2 ≤ 0 ∨
          ∀ q ∈ get_all_leds_sorted_by_priority [demoArray],
            (ledAt (shed_leds demoState [demoArray] 60 0 0).1 q).is_on = false)
      ∧ (shed_leds demoState [demoArray] 60 0 0).2.2.2 =
          (calculate_load [demoArray] - ((60:ℚ) + 0)) -
            (((shed_leds demoState [demoArray] 60 0 0).2.2.1).map
              (fun s => s.led_power)).sum
      ∧ ∀ n < (shed_leds demoState [demoArray] 60 0 0).2.2.1.length,
          0 < (calculate_load [demoArray] - ((60:ℚ) + 0)) -
            ((((shed_leds demoState [demoArray] 60 0 0).2.2.1).take n).map
              (fun s => s.led_power)).sum) :=
  ⟨by norm_num [calculate_load, demoArray, List.foldl_cons, List.foldl_nil],
   shed_leds_descending_priority demoState [demoArray] 60 0 0
     (by norm_num [calculate_load, demoArray, List.foldl_cons, List.foldl_nil])⟩

/-- Concrete LED of priority 1 that is off. -/
def demoOffLed1 : LED :=
  { id := "l1", label := "LED 1", intensity_limit_pct := 100, priority := 1,
    is_on := false, current_intensity_pct := 0 }

/-- Concrete LED of priority 5 that is off. -/
def demoOffLed5 : LED :=
  { id := "l5", label := "LED 5", intensity_limit_pct := 100, priority := 5,
    is_on := false, current_intensity_pct := 0 }

/-- One enabled idle array (no load) with the two off LEDs above. -/
def demoOffArray : ArrayStatus :=
  { id := "a", name := "Array A", enabled := true, duty := 1,
    leds := [demoOffLed1, demoOffLed5], power_w := 0, max_current_a := 5,
    nominal_voltage_v := 12 }

/-- Allocator state whose surplus-start timers for both LEDs date from t = 0. -/
def demoRestoreState : PowerAllocatorState :=
  { target_watts := 400, restore_hysteresis_pct := 10, restore_delay_s := 10,
    last_shed_time := [], surplus_start_time := [(("a", "l1"), 0), (("a", "l5"), 0)] }

/-- The restore pass exactly as in the source except that the off-loads are
walked in the order the specification prescribes — descending priority, i.e.
without the source's `all_leds.reverse()`.  Used only to compare the
implemented order against the specified one. -/
def restore_leds_specOrder (st : PowerAllocatorState) (arrays : List ArrayStatus)
    (pv_w battery_w_available now : ℚ) :
    List ArrayStatus × TimeMap × List RestoreStep × ℚ :=
  let available_power := pv_w + battery_w_available
  let current_load := calculate_load arrays
  let surplus := available_power - current_load
  let required_surplus := available_power * (st.restore_hysteresis_pct / 100)
  if surplus ≤ required_surplus then (arrays, [], [], surplus)
  else
    restore_loop now st.restore_delay_s (get_all_leds_sorted_by_priority arrays)
      arrays st.surplus_start_time surplus

theorem restore_leds_demo_eval :
    ((restore_leds demoRestoreState [demoOffArray] 40 0 100).2.2.1).map
      (fun s => (s.array_id, s.led_id)) = [("a", "l1")] := by
  norm_num [restore_leds, restore_loop, calculate_load, get_all_leds_sorted_by_priority,
    enumLeds, prioGE, ledAt, setLed, updateAt, findArray, onCount, dictSet, dictErase,
    dictLookup, restoreOn, demoRestoreState, demoOffArray, demoOffLed1, demoOffLed5,
    List.insertionSort, List.orderedInsert, List.range_succ, List.range_zero,
    List.foldl_cons, List.foldl_nil, List.find?, List.filter,
    show ("l1" : String) ≠ "l5" by decide, show ("l5" : String) ≠ "l1" by decide]

theorem restore_leds_specOrder_demo_eval :
    ((restore_leds_specOrder demoRestoreState [demoOffArray] 40 0 100).2.2.1).map
      (fun s => (s.array_id, s.led_id)) = [("a", "l5")] := by
  norm_num [restore_leds_specOrder, restore_loop, calculate_load,
    get_all_leds_sorted_by_priority, enumLeds, prioGE, ledAt, setLed, updateAt,
    findArray, onCount, dictSet, dictErase, dictLookup, restoreOn, demoRestoreState,
    demoOffArray, demoOffLed1, demoOffLed5, List.insertionSort, List.orderedInsert,
    List.range_succ, List.range_zero, List.foldl_cons, List.foldl_nil,
    List.find?, List.filter,
    show ("l1" : String) ≠ "l5" by decide, show ("l5" : String) ≠ "l1" by decide]

/-- C2 counterexample: with both LEDs off, both timers elapsed, and surplus
for exactly one of them, the implemented pass restores the priority-1 LED
(ascending walk) while walking in the claimed descending order would restore
the priority-5 LED first: the pass does not consider higher-priority
off-loads before lower-priority ones. -/
theorem restore_leds_not_descending :
    ((restore_leds demoRestoreState [demoOffArray] 40 0 100).2.2.1).map
        (fun s => (s.array_id, s.led_id)) = [("a", "l1")]
    ∧ ((restore_leds_specOrder demoRestoreState [demoOffArray] 40 0 100).2.2.1).map
        (fun s => (s.array_id, s.led_id)) = [("a", "l5")]
    ∧ ([("a", "l1")] : List (String × String)) ≠ [("a", "l5")] :=
  ⟨restore_leds_demo_eval, restore_leds_specOrder_demo_eval, by decide⟩

/-- C5 witness: the claim instantiated on the concrete restore pass above. -/
theorem restore_leds_delay_guard_witness :
    (0 < demoRestoreState.restore_delay_s)
    ∧ ((((40:ℚ) + 0) - calculate_load [demoOffArray] ≤
          ((40:ℚ) + 0) * (demoRestoreState.restore_hysteresis_pct / 100) →
        (restore_leds demoRestoreState [demoOffArray] 40 0 100).2.2.1 = [] ∧
        (restore_leds demoRestoreState [demoOffArray] 40 0 100).2.1 = [])
      ∧ (∀ s ∈ (restore_leds demoRestoreState [demoOffArray] 40 0 100).2.2.1,
          ∃ t0, dictLookup demoRestoreState.surplus_start_time (s.array_id, s.led_id) = some t0 ∧
            demoRestoreState.restore_delay_s ≤ 100 - t0)
      ∧ (demoRestoreState.surplus_start_time = [] →
          (restore_leds demoRestoreState [demoOffArray] 40 0 100).2.2.1 = [])) :=
  ⟨by decide,
   restore_leds_delay_guard demoRestoreState [demoOffArray] 40 0 100 (by decide)⟩

end PowerAllocator
